import Mathlib

/-!
Verification development for the demhan card-combat game server
(`src/functions/socket.js`).

The JavaScript source is shallowly embedded: the pure hand-evaluation
functions become Lean functions on lists; the socket handlers become pure
state-transition functions `Room → …` returning the updated room together
with the list of emitted events; JavaScript in-place mutation becomes
functional record update; `Math.random()` choices are passed in explicitly
as a `choose : Nat → Nat` stream (the Fisher-Yates partner index for size
`i + 1` is `choose i % (i + 1)`, mirroring `Math.floor(Math.random() * (i + 1))`).
JavaScript numbers that are only ever non-negative integers in this program
are modelled as `Nat`; `Math.max(0, h - d)` is `Nat` truncated subtraction,
and `Math.floor(d * 0.25)` / `Math.floor(d * 1.25)` are `d / 4` and
`d * 5 / 4` (0.25 and 1.25 are exact binary doubles, so the JavaScript
computation is exact before the floor).

Transport concerns (socket.io, CORS, ports, the rooms/sessions `Map`s as a
whole) are outside the embedded core; each handler takes the already looked
up `Option Room` and a `known : Bool` flag standing for the
`players.get(socket.id)` session lookup.
-/

/-- A card. The JavaScript id is the string `suit-rank-Math.random()`,
unique within a deck; it is modelled as the Nat `suitIndex * 13 + rank`,
which is likewise unique within a deck. -/
structure Card where
  id : Nat
  suit : String
  rank : Nat
  selected : Bool
  markedForDiscard : Bool
  deriving Repr, DecidableEq

instance : Inhabited Card := ⟨⟨0, "", 0, false, false⟩⟩

/-- Comparator used by `cards.sort((a, b) => a.rank - b.rank)`. -/
def byRank (a b : Card) : Prop := a.rank ≤ b.rank

instance : DecidableRel byRank := fun a b => Nat.decLe a.rank b.rank

instance : IsTotal Card byRank := ⟨fun a b => Nat.le_total a.rank b.rank⟩

instance : IsTrans Card byRank := ⟨fun _ _ _ => Nat.le_trans⟩

/-- `[...cards].sort((a, b) => a.rank - b.rank)`. -/
def sortCards (cards : List Card) : List Card := List.insertionSort byRank cards

/-- The distinct values occurring in a list, as used both by the
`rankCounts` object keys and by `new Set(ranks).size`. -/
def distinctVals : List Nat → List Nat
  | [] => []
  | a :: l => let d := distinctVals l; if a ∈ d then d else a :: d

/-- Insert into a descending-sorted list. -/
def insertDesc (a : Nat) : List Nat → List Nat
  | [] => [a]
  | b :: l => if b ≤ a then a :: b :: l else b :: insertDesc a l

/-- `Object.values(rankCounts).sort((a, b) => b - a)`: sort descending. -/
def sortDescNat : List Nat → List Nat
  | [] => []
  | a :: l => insertDesc a (sortDescNat l)

/-- `rankCounts` built from the (sorted) ranks, values sorted descending.
The JavaScript builds an object keyed by rank and sorts its values; the
multiset of values is the multiplicity of each distinct rank, so after the
descending sort the result is this list. -/
def countsOf (ranks : List Nat) : List Nat :=
  sortDescNat ((distinctVals ranks).map fun r => ranks.count r)

/-- `suits.every(suit => suit === suits[0]) && cards.length === 5`,
with `suits` taken from the rank-sorted card list. -/
def isFlushSorted (sorted : List Card) : Bool :=
  ((sorted.map (·.suit)).all fun s => s == (sorted.map (·.suit)).headD "")
    && sorted.length == 5

/-- The wheel flag: 5 cards, 5 distinct ranks, sorted ranks literally
`1,2,3,4,5` (the `ranks.join(",") === "1,2,3,4,5"` test). -/
def isLowStraightSorted (sorted : List Card) : Bool :=
  sorted.length == 5 && (distinctVals (sorted.map (·.rank))).length == 5
    && sorted.map (·.rank) == [1, 2, 3, 4, 5]

/-- The generic straight flag: only checked when not the wheel;
`ranks[4] - ranks[0] === 4` on the sorted ranks. -/
def isStraightSorted (sorted : List Card) : Bool :=
  sorted.length == 5 && (distinctVals (sorted.map (·.rank))).length == 5
    && !(sorted.map (·.rank) == [1, 2, 3, 4, 5])
    && ((sorted.map (·.rank)).getD 4 0 - (sorted.map (·.rank)).getD 0 0 == 4)

/-- The royal flag: flush together with sorted ranks `1,10,11,12,13`. -/
def isRoyalSorted (sorted : List Card) : Bool :=
  sorted.length == 5 && (distinctVals (sorted.map (·.rank))).length == 5
    && isFlushSorted sorted && sorted.map (·.rank) == [1, 10, 11, 12, 13]

/-- Result of `validateHand`. -/
structure Validation where
  valid : Bool
  error : Option String
  deriving Repr, DecidableEq

/-- The body of `validateHand` after the sort; every quantity it uses is
derived from the sorted card list. -/
def validateSorted (sorted : List Card) : Validation :=
  if sorted.length = 0 then ⟨false, some "No cards selected"⟩
  else
    let counts := countsOf (sorted.map (·.rank))
    match sorted.length with
    | 1 => ⟨true, none⟩
    | 2 =>
      if counts.getD 0 0 ≠ 2 then ⟨false, some "Two cards must be a pair (same rank)"⟩
      else ⟨true, none⟩
    | 3 =>
      if counts.getD 0 0 ≠ 3 then
        ⟨false, some "Three cards must be three of a kind (same rank)"⟩
      else ⟨true, none⟩
    | 4 =>
      if counts.getD 0 0 = 4 then ⟨true, none⟩
      else if counts.getD 0 0 = 2 ∧ counts.getD 1 0 = 2 then ⟨true, none⟩
      else ⟨false, some "Four cards must be either four of a kind or two pair"⟩
    | 5 =>
      if isRoyalSorted sorted then ⟨true, none⟩
      else if isFlushSorted sorted && (isStraightSorted sorted || isLowStraightSorted sorted) then
        ⟨true, none⟩
      else if counts.getD 0 0 = 3 ∧ counts.getD 1 0 = 2 then ⟨true, none⟩
      else if isFlushSorted sorted then ⟨true, none⟩
      else if isStraightSorted sorted || isLowStraightSorted sorted then ⟨true, none⟩
      else ⟨false, some "5 cards must form: Straight, Flush, Full House, Straight Flush, or Royal Flush"⟩
    | _ => ⟨false, some "Invalid number of cards. Play 1, 2, 3, 4, or 5 cards only."⟩

/-- `validateHand(cards)`. -/
def validateHand (cards : List Card) : Validation := validateSorted (sortCards cards)

/-- Per-card face value: rank 1 counts 14, ranks 13/12/11 count themselves
(the explicit branches in the source), every other rank counts itself. -/
def faceValue (r : Nat) : Nat :=
  if r = 1 then 14 else if r = 13 then 13 else if r = 12 then 12 else if r = 11 then 11 else r

/-- `cards.reduce((total, card) => total + faceValue(card), 0)`. -/
def faceValueDamage (cards : List Card) : Nat :=
  cards.foldl (fun t c => t + faceValue c.rank) 0

/-- The `HAND_RANKINGS[...].damage` base-damage table. -/
def categoryBase : String → Nat
  | "Royal Flush" => 50
  | "Straight Flush" => 40
  | "Four of a Kind" => 35
  | "Full House" => 30
  | "Flush" => 25
  | "Straight" => 20
  | "Three of a Kind" => 15
  | "Two Pair" => 10
  | "One Pair" => 5
  | "High Card" => 1
  | _ => 0

/-- The `handType` selected by the if-else chain in `evaluateHand`
(each branch sets `baseDamage = HAND_RANKINGS[handType].damage` in
lockstep, captured by `categoryBase`). -/
def handTypeSorted (sorted : List Card) : String :=
  let counts := countsOf (sorted.map (·.rank))
  if isRoyalSorted sorted then "Royal Flush"
  else if isFlushSorted sorted && (isStraightSorted sorted || isLowStraightSorted sorted) then
    "Straight Flush"
  else if counts.getD 0 0 = 4 then "Four of a Kind"
  else if counts.getD 0 0 = 3 ∧ counts.getD 1 0 = 2 then "Full House"
  else if isFlushSorted sorted then "Flush"
  else if isStraightSorted sorted || isLowStraightSorted sorted then "Straight"
  else if counts.getD 0 0 = 3 then "Three of a Kind"
  else if counts.getD 0 0 = 2 ∧ counts.getD 1 0 = 2 then "Two Pair"
  else if counts.getD 0 0 = 2 then "One Pair"
  else "High Card"

/-- Result of `evaluateHand` (the `description` string is not modelled). -/
structure HandResult where
  type : String
  damage : Nat
  deriving Repr, DecidableEq

/-- `evaluateHand(cards)`: total damage is the category base plus the
summed face values. -/
def evaluateHand (cards : List Card) : HandResult :=
  if cards.length = 0 then ⟨"No Cards", 0⟩
  else if !(validateHand cards).valid then ⟨"Invalid Hand", 0⟩
  else
    let t := handTypeSorted (sortCards cards)
    ⟨t, categoryBase t + faceValueDamage cards⟩

/-- A player record (the fields touched by the game engine; `parryCards`
is initialised but never read anywhere, and is not modelled). `armor` and
`prediction` exist only in Tactical mode in the source; here they are
always present and only touched under the Tactical-mode guards, exactly as
the source touches them. -/
structure Player where
  id : Nat
  name : String
  health : Nat
  maxHealth : Nat
  hand : List Card
  selectedCards : List Card
  discardsUsed : Nat
  maxDiscards : Nat
  maxCardsPerDiscard : Nat
  armor : Nat
  prediction : Option String
  deriving Repr, DecidableEq

instance : Inhabited Player := ⟨⟨0, "", 0, 0, [], [], 0, 0, 0, 0, none⟩⟩

/-- A room record (transport-only fields `id`/`name` omitted). -/
structure Room where
  gameMode : String
  players : List Player
  gameState : String
  currentPlayer : Nat
  turn : Nat
  deck : List Card
  discardPile : List Card
  lastPlayedHand : Option HandResult
  deriving Repr, DecidableEq

instance : Inhabited Room := ⟨⟨"", [], "", 0, 0, [], [], none⟩⟩

/-- Events the handlers emit (payloads reduced to the fields the
specification talks about; what matters for the claims is which events are
emitted at all). -/
inductive Event where
  | errorEv (msg : String)
  | invalidHandEv (msg : String)
  | cardSelectedEv (playerIndex : Nat) (cardId : Nat) (selected : Bool)
  | cardMarkedEv (playerIndex : Nat) (cardId : Nat) (marked : Bool)
  | gameStateUpdateEv
  | predictionMadeEv (playerIndex : Nat) (prediction : String)
  | handPlayedEv (playerIndex : Nat) (turn : Nat)
  | armorBuiltEv (playerIndex : Nat) (armorGained : Nat) (turn : Nat)
  | gameEndedEv (winnerId : Nat)
  | gameStartedEv
  | rematchAcceptedEv
  deriving Repr, DecidableEq

/-- Outcome of one handler invocation. `crash` marks the states in which
the JavaScript would throw a TypeError (a property access on `undefined`);
it carries the room as mutated up to the throwing statement. -/
inductive StepOut where
  | ok (room : Option Room) (events : List Event)
  | crash (room : Option Room)
  deriving Repr, DecidableEq

/-- The room left behind by a handler invocation. -/
def stepRoom : StepOut → Option Room
  | .ok r _ => r
  | .crash r => r

/-- The events emitted by a handler invocation. -/
def stepEvents : StepOut → List Event
  | .ok _ evts => evts
  | .crash _ => []

/-- `{...card, selected: false, markedForDiscard: false}`. -/
def cleanFlags (c : Card) : Card := { c with selected := false, markedForDiscard := false }

/-- Swap two positions of a list (array element swap). -/
def swapAt (l : List Card) (i j : Nat) : List Card :=
  match l.get? i, l.get? j with
  | some a, some b => (l.set i b).set j a
  | _, _ => l

/-- The Fisher-Yates loop body, for indices `i, i-1, ..., 1`; the partner
index for position `i` is `choose i % (i + 1)`, standing for
`Math.floor(Math.random() * (i + 1))`. -/
def fyLoop (choose : Nat → Nat) : Nat → List Card → List Card
  | 0, l => l
  | i + 1, l => fyLoop choose i (swapAt l (i + 1) (choose (i + 1) % (i + 2)))

/-- The shuffle used both by `createDeck` and by the Recycling reshuffle:
`for (i = length - 1; i > 0; i--) swap(i, j)`. -/
def fisherYates (choose : Nat → Nat) (l : List Card) : List Card :=
  fyLoop choose (l.length - 1) l

/-- The four suit strings, in source order. -/
def suitNames : List String := ["hearts", "diamonds", "clubs", "spades"]

/-- All 52 rank-suit combinations in creation order, before the shuffle. -/
def unshuffledDeck : List Card :=
  (suitNames.enum.map fun sp =>
    (List.range 13).map fun r =>
      { id := sp.1 * 13 + (r + 1), suit := sp.2, rank := r + 1,
        selected := false, markedForDiscard := false : Card }).flatten

/-- `createDeck()`: the 52 cards, Fisher-Yates shuffled. -/
def createDeck (choose : Nat → Nat) : List Card := fisherYates choose unshuffledDeck

/-- `GAME_MODE_CONFIG[mode].startingHealth`, with the `|| CLASSIC`
fallback for unknown modes. -/
def startingHealth (gameMode : String) : Nat :=
  if gameMode = "recycling" then 150 else 100

/-- The per-player initialisation shared by `startGame` and
`acceptRematch`: health, `deck.slice(index*8, (index+1)*8)` as hand,
reset discard counters, and in Tactical mode armor/prediction reset. -/
def initPlayer (gameMode : String) (deck : List Card) (index : Nat) (p : Player) : Player :=
  let base := { p with
    health := startingHealth gameMode, maxHealth := startingHealth gameMode,
    hand := (deck.drop (index * 8)).take 8, selectedCards := [],
    discardsUsed := 0, maxDiscards := 3, maxCardsPerDiscard := 3 }
  if gameMode = "tactical" then { base with armor := 0, prediction := none } else base

/-- `startGame(roomId)`: requires exactly two players, otherwise returns
without touching the room. Note the source does not reset
`lastPlayedHand` here (only `acceptRematch` does). -/
def startGame (room? : Option Room) (choose : Nat → Nat) (firstRand : Nat) : StepOut :=
  match room? with
  | none => .ok none []
  | some room =>
    if room.players.length ≠ 2 then .ok (some room) []
    else
      let deck := createDeck choose
      let players' := room.players.enum.map fun ip => initPlayer room.gameMode deck ip.1 ip.2
      .ok (some { room with
        players := players', gameState := "playing",
        currentPlayer := firstRand % 2, turn := 1, deck := deck.drop 16,
        discardPile := if room.gameMode = "recycling" then [] else room.discardPile })
        [.gameStartedEv]

/-- `acceptRematch`: same reset as `startGame` but with no player-count
guard; after mutating players, `gameState` and `currentPlayer` the source
reads `room.players[room.currentPlayer].name`, which throws when the
random index falls outside the player list (the remaining assignments,
`turn`/`deck`/`lastPlayedHand`/`discardPile`, are then never executed). -/
def acceptRematch (room? : Option Room) (known : Bool) (choose : Nat → Nat)
    (firstRand : Nat) : StepOut :=
  match room? with
  | none => .ok none []
  | some room =>
    if ¬ known then .ok (some room) []
    else
      let deck := createDeck choose
      let players' := room.players.enum.map fun ip => initPlayer room.gameMode deck ip.1 ip.2
      let cp := firstRand % 2
      if cp < players'.length then
        .ok (some { room with
          players := players', gameState := "playing", currentPlayer := cp,
          turn := 1, deck := deck.drop 16, lastPlayedHand := none,
          discardPile := if room.gameMode = "recycling" then [] else room.discardPile })
          [.rematchAcceptedEv]
      else
        .crash (some { room with players := players', gameState := "playing", currentPlayer := cp })

/-- Toggle the `selected` flag on the first card with the given id,
returning the new hand and the flag value after the toggle
(`undefined` lookup → `none`, the handler then does nothing). -/
def toggleSelect (cardId : Nat) : List Card → Option (List Card × Bool)
  | [] => none
  | c :: t =>
    if c.id = cardId then some ({ c with selected := !c.selected } :: t, !c.selected)
    else (toggleSelect cardId t).map fun r => (c :: r.1, r.2)

/-- Toggle the `markedForDiscard` flag on the first card with the given id. -/
def toggleMark (cardId : Nat) : List Card → Option (List Card × Bool)
  | [] => none
  | c :: t =>
    if c.id = cardId then some ({ c with markedForDiscard := !c.markedForDiscard } :: t, !c.markedForDiscard)
    else (toggleMark cardId t).map fun r => (c :: r.1, r.2)

/-- `selectCard` handler. The `findIndex` result `-1` for a session that is
not a room member never equals `room.currentPlayer` (a non-negative index),
so that case is the same silent return as the out-of-turn case. -/
def selectCard (room? : Option Room) (known : Bool) (actorId cardId : Nat) : StepOut :=
  match room? with
  | none => .ok none []
  | some room =>
    if ¬ known ∨ room.gameState ≠ "playing" then .ok (some room) []
    else
      match room.players.findIdx? (fun p => p.id == actorId) with
      | none => .ok (some room) []
      | some i =>
        if i ≠ room.currentPlayer then .ok (some room) []
        else
          match room.players.get? i with
          | none => .crash (some room)
          | some cur =>
            match toggleSelect cardId cur.hand with
            | none => .ok (some room) []
            | some (hand', sel) =>
              let cur' := { cur with hand := hand', selectedCards := hand'.filter (·.selected) }
              .ok (some { room with players := room.players.set i cur' })
                [.cardSelectedEv i cardId sel]

/-- `markForDiscard` handler (note: it does not recompute `selectedCards`). -/
def markForDiscard (room? : Option Room) (known : Bool) (actorId cardId : Nat) : StepOut :=
  match room? with
  | none => .ok none []
  | some room =>
    if ¬ known ∨ room.gameState ≠ "playing" then .ok (some room) []
    else
      match room.players.findIdx? (fun p => p.id == actorId) with
      | none => .ok (some room) []
      | some i =>
        if i ≠ room.currentPlayer then .ok (some room) []
        else
          match room.players.get? i with
          | none => .crash (some room)
          | some cur =>
            match toggleMark cardId cur.hand with
            | none => .ok (some room) []
            | some (hand', marked) =>
              let cur' := { cur with hand := hand' }
              .ok (some { room with players := room.players.set i cur' })
                [.cardMarkedEv i cardId marked]

/-- `discardCards` handler. -/
def discardCards (room? : Option Room) (known : Bool) (actorId : Nat) : StepOut :=
  match room? with
  | none => .ok none []
  | some room =>
    if ¬ known ∨ room.gameState ≠ "playing" then .ok (some room) []
    else
      match room.players.findIdx? (fun p => p.id == actorId) with
      | none => .ok (some room) []
      | some i =>
        if i ≠ room.currentPlayer then .ok (some room) []
        else
          match room.players.get? i with
          | none => .crash (some room)
          | some cur =>
            let marked := cur.hand.filter (·.markedForDiscard)
            if marked.length = 0 ∨ marked.length > cur.maxCardsPerDiscard
                ∨ cur.discardsUsed ≥ cur.maxDiscards then .ok (some room) []
            else
              let discard1 :=
                if room.gameMode = "recycling" then room.discardPile ++ marked.map cleanFlags
                else room.discardPile
              let newCards := (room.deck.take marked.length).map cleanFlags
              let cur' := { cur with
                hand := cur.hand.filter (fun c => !c.markedForDiscard) ++ newCards,
                discardsUsed := cur.discardsUsed + 1 }
              .ok (some { room with
                players := room.players.set i cur',
                deck := room.deck.drop marked.length,
                discardPile := discard1 })
                [.gameStateUpdateEv]

/-- `makePrediction` handler. There is no `gameState` guard. A session that
is in the `players` map but not in this room gives `findIndex = -1`, which
passes the `playerIndex === room.currentPlayer` check (it is not equal),
and the handler then assigns `room.players[-1].prediction`; indexing an
array at `-1` yields `undefined`, so the assignment throws. -/
def makePrediction (room? : Option Room) (known : Bool) (actorId : Nat)
    (pred : String) : StepOut :=
  match room? with
  | none => .ok none []
  | some room =>
    if ¬ known ∨ room.gameMode ≠ "tactical" then .ok (some room) []
    else
      match room.players.findIdx? (fun p => p.id == actorId) with
      | none => .crash (some room)
      | some i =>
        if i = room.currentPlayer then
          .ok (some room) [.errorEv "You cannot predict your own hand"]
        else
          match room.players.get? i with
          | none => .crash (some room)
          | some pl =>
            .ok (some { room with
              players := room.players.set i { pl with prediction := some pred } })
              [.predictionMadeEv i pred]

/-- The card flow shared verbatim by the two turn-ending handlers
(`playHand` lines 589-626 and `buildArmor` lines 741-771): remove the
selected cards from the hand, in Recycling mode push them (flags cleared)
onto the discard pile and, when the draw pile holds fewer than 8 cards and
the discard pile is non-empty, Fisher-Yates shuffle the discard pile and
append it to the bottom of the draw pile; finally splice 8 cards off the
draw pile as the entire new hand. Returns (new hand, new draw pile, new
discard pile). The unselected remainder of the old hand is simply
discarded by the source (the hand is fully replaced). -/
def resolveCardFlow (choose : Nat → Nat) (gameMode : String)
    (deck discardPile hand : List Card) : List Card × List Card × List Card :=
  let played := hand.filter (·.selected)
  let (deck1, discard1) :=
    if gameMode = "recycling" then
      let d := discardPile ++ played.map cleanFlags
      if deck.length < 8 ∧ d.length > 0 then (deck ++ fisherYates choose d, [])
      else (deck, d)
    else (deck, discardPile)
  ((deck1.take 8).map cleanFlags, deck1.drop 8, discard1)

/-- The success path of `playHand` after all guards: prediction
multiplier, armor absorption, damage to health, card flow, game-over
check or turn switch. -/
def playHandCore (room : Room) (i : Nat) (cur enemy : Player) (choose : Nat → Nat) : StepOut :=
  let hr := evaluateHand cur.selectedCards
  -- prediction multiplier: guarded by mode and JS truthiness of the stored string
  let pd : Nat × Option String :=
    if room.gameMode = "tactical" then
      match enemy.prediction with
      | some p =>
        if p ≠ "" then
          (if p = hr.type then (hr.damage / 4, none) else (hr.damage * 5 / 4, none))
        else (hr.damage, some p)
      | none => (hr.damage, none)
    else (hr.damage, enemy.prediction)
  -- armor absorption
  let ad : Nat × Nat :=
    if room.gameMode = "tactical" ∧ enemy.armor > 0 then
      (enemy.armor - min enemy.armor pd.1, pd.1 - min enemy.armor pd.1)
    else (enemy.armor, pd.1)
  let health1 := enemy.health - ad.2
  let enemy1 := { enemy with prediction := pd.2, armor := ad.1, health := health1 }
  let flow := resolveCardFlow choose room.gameMode room.deck room.discardPile cur.hand
  let cur1 := { cur with hand := flow.1, selectedCards := [] }
  let lph := some { hr with damage := ad.2 }
  if health1 = 0 then
    .ok (some { room with
      players := (room.players.set i cur1).set (1 - i) enemy1,
      deck := flow.2.1, discardPile := flow.2.2,
      lastPlayedHand := lph, gameState := "ended" })
      [.gameEndedEv cur.id]
  else
    .ok (some { room with
      players := (room.players.set i cur1).set (1 - i)
        { enemy1 with discardsUsed := 0 },
      deck := flow.2.1, discardPile := flow.2.2,
      lastPlayedHand := lph,
      currentPlayer := 1 - i, turn := room.turn + 1 })
      [.handPlayedEv i (room.turn + 1)]

/-- `playHand` handler. -/
def playHand (room? : Option Room) (known : Bool) (actorId : Nat)
    (choose : Nat → Nat) : StepOut :=
  match room? with
  | none => .ok none []
  | some room =>
    if ¬ known ∨ room.gameState ≠ "playing" then .ok (some room) []
    else
      match room.players.findIdx? (fun p => p.id == actorId) with
      | none => .ok (some room) []
      | some i =>
        if i ≠ room.currentPlayer then .ok (some room) []
        else
          match room.players.get? i, (if i ≤ 1 then room.players.get? (1 - i) else none) with
          | some cur, some enemy =>
            if cur.selectedCards.length = 0 then .ok (some room) []
            else
              let validation := validateHand cur.selectedCards
              if !validation.valid then
                .ok (some room) [.invalidHandEv (validation.error.getD "")]
              else playHandCore room i cur enemy choose
          | _, _ => .crash (some room)

/-- The armor gained per hand category in `buildArmor` (the switch
statement, with its `default: 2`). -/
def armorTable : String → Nat
  | "High Card" => 2
  | "One Pair" => 5
  | "Two Pair" => 8
  | "Three of a Kind" => 12
  | "Straight" => 15
  | "Flush" => 18
  | "Full House" => 22
  | "Four of a Kind" => 25
  | "Straight Flush" => 30
  | "Royal Flush" => 35
  | _ => 2

/-- The success path of `buildArmor` after all guards: armor gain capped
at 50, card flow, turn switch. The missing-opponent `crash` branch is
unreachable while both players are present. -/
def buildArmorCore (room : Room) (cur : Player) (choose : Nat → Nat) : StepOut :=
  let hr := evaluateHand cur.selectedCards
  let newArmor := min 50 (cur.armor + armorTable hr.type)
  let flow := resolveCardFlow choose room.gameMode room.deck room.discardPile cur.hand
  let cur1 := { cur with armor := newArmor, hand := flow.1, selectedCards := [] }
  let i := room.currentPlayer
  match (if i ≤ 1 then room.players.get? (1 - i) else none) with
  | none => .crash (some room)
  | some enemy =>
    .ok (some { room with
      players := (room.players.set i cur1).set (1 - i)
        { enemy with discardsUsed := 0 },
      deck := flow.2.1, discardPile := flow.2.2,
      currentPlayer := 1 - i, turn := room.turn + 1 })
      [.armorBuiltEv i (newArmor - cur.armor) (room.turn + 1)]

/-- `buildArmor` handler. Unlike the other in-game handlers, an
out-of-turn attempt (including `findIndex = -1`) emits an `error` event to
the actor rather than returning silently, and an empty selection also
emits an `error`. The Recycling branch of the card flow is unreachable
here because the handler requires `gameMode === "tactical"`. -/
def buildArmor (room? : Option Room) (known : Bool) (actorId : Nat)
    (choose : Nat → Nat) : StepOut :=
  match room? with
  | none => .ok none []
  | some room =>
    if ¬ known ∨ room.gameMode ≠ "tactical" ∨ room.gameState ≠ "playing" then
      .ok (some room) []
    else
      let idx := room.players.findIdx? (fun p => p.id == actorId)
      if idx ≠ some room.currentPlayer then
        .ok (some room) [.errorEv "You can only build armor on your turn"]
      else
        match room.players.get? room.currentPlayer with
        | none => .crash (some room)
        | some cur =>
          if cur.selectedCards.length = 0 then
            .ok (some room) [.errorEv "No cards selected"]
          else
            let validation := validateHand cur.selectedCards
            if !validation.valid then
              .ok (some room) [.invalidHandEv (validation.error.getD "")]
            else buildArmorCore room cur choose

/-- The ranks of a card list, in list order. -/
def ranksOf (cards : List Card) : List Nat := cards.map (·.rank)

/-- Modelled from the spec: all cards share one rank (pair, trips,
four-of-a-kind rows of the validation table). -/
def specAllRanksEqual (cards : List Card) : Bool :=
  cards.all fun c => c.rank == (cards.headD default).rank

/-- Modelled from the spec: all cards share one suit. -/
def specAllSameSuit (cards : List Card) : Bool :=
  cards.all fun c => c.suit == (cards.headD default).suit

/-- Modelled from the spec: "Flush requires all 5 cards share one suit". -/
def specFlush (cards : List Card) : Bool :=
  cards.length == 5 && specAllSameSuit cards

/-- Modelled from the spec: the wheel is the rank multiset 1,2,3,4,5. -/
def specWheel (cards : List Card) : Bool :=
  decide ((ranksOf cards : Multiset Nat) = ({1, 2, 3, 4, 5} : Multiset Nat))

/-- Modelled from the spec: the royal pattern, rank multiset 1,10,11,12,13. -/
def specRoyalRanks (cards : List Card) : Bool :=
  decide ((ranksOf cards : Multiset Nat) = ({1, 10, 11, 12, 13} : Multiset Nat))

/-- Maximum of a list of naturals (0 for the empty list). -/
def natListMax : List Nat → Nat
  | [] => 0
  | a :: l => l.foldl max a

/-- Minimum of a list of naturals (0 for the empty list). -/
def natListMin : List Nat → Nat
  | [] => 0
  | a :: l => l.foldl min a

/-- Modelled from the spec: a straight is 5 distinct ranks that are either
the wheel or span exactly 4 (max rank minus min rank = 4). -/
def specStraight (cards : List Card) : Bool :=
  decide (ranksOf cards).Nodup
    && (specWheel cards || (natListMax (ranksOf cards) - natListMin (ranksOf cards) == 4))

/-- Modelled from the spec: full house = three of a kind plus a pair. -/
def specFullHouse (cards : List Card) : Bool :=
  ((ranksOf cards).any fun r => (ranksOf cards).count r == 3)
    && ((ranksOf cards).any fun r => (ranksOf cards).count r == 2)

/-- Modelled from the spec: Royal Flush = flush with the royal rank pattern. -/
def specRoyalFlush (cards : List Card) : Bool :=
  specFlush cards && specRoyalRanks cards

/-- Modelled from the spec: straight flush = flush and straight. -/
def specStraightFlush (cards : List Card) : Bool :=
  specFlush cards && specStraight cards

/-- Modelled from the spec: two distinct pairs — every rank in the
4-card set occurs exactly twice. -/
def specTwoDistinctPairs (cards : List Card) : Bool :=
  (ranksOf cards).all fun r => (ranksOf cards).count r == 2

/-- Modelled from the spec: the validation table of section 4.2,
row by row by card count. -/
def specValidate (cards : List Card) : Bool :=
  match cards.length with
  | 0 => false
  | 1 => true
  | 2 => specAllRanksEqual cards
  | 3 => specAllRanksEqual cards
  | 4 => specAllRanksEqual cards || specTwoDistinctPairs cards
  | 5 => specRoyalFlush cards || specStraightFlush cards || specFullHouse cards
      || specFlush cards || specStraight cards
  | _ => false

/-- The multiset of card ids over every zone of a room: all hands, the
draw pile, and the discard pile. -/
def roomCardIds (r : Room) : Multiset Nat :=
  (((r.players.map fun p => p.hand.map (·.id)).flatten
    ++ r.deck.map (·.id) ++ r.discardPile.map (·.id) : List Nat) : Multiset Nat)

/-- Total number of cards held in a room across all zones. -/
def totalCards (r : Room) : Nat :=
  (r.players.map fun p => p.hand.length).sum + r.deck.length + r.discardPile.length

/-- Modelled from the spec: face value of rank 1 is 14, every other rank
counts as itself. -/
def specFaceValue (r : Nat) : Nat := if r = 1 then 14 else r

/-- A concrete royal flush in hearts (ids arbitrary). -/
def royalHearts : List Card :=
  [⟨1, "hearts", 1, false, false⟩, ⟨2, "hearts", 10, false, false⟩,
   ⟨3, "hearts", 11, false, false⟩, ⟨4, "hearts", 12, false, false⟩,
   ⟨5, "hearts", 13, false, false⟩]

/-- The royal rank pattern without a flush: club ace with four hearts. -/
def nonFlushRoyal : List Card :=
  [⟨1, "clubs", 1, false, false⟩, ⟨2, "hearts", 10, false, false⟩,
   ⟨3, "hearts", 11, false, false⟩, ⟨4, "hearts", 12, false, false⟩,
   ⟨5, "hearts", 13, false, false⟩]

/-- A deterministic random stream (always 0) for the demonstrations. -/
def cz : Nat → Nat := fun _ => 0

/-- Demonstration players and rooms for the concrete instances. -/
def demoP1 : Player := ⟨1, "Alice", 100, 100, [], [], 0, 3, 3, 0, none⟩

def demoP2 : Player := ⟨2, "Bob", 100, 100, [], [], 0, 3, 3, 0, none⟩

def demoTacticalRoom : Room := ⟨"tactical", [demoP1, demoP2], "waiting", 0, 1, [], [], none⟩

def demoTacticalPlaying : Room := { demoTacticalRoom with gameState := "playing" }

/-- A selected lethal card (rank 2: High Card, damage 1 + 2 = 3). -/
def lethalCard : Card := ⟨100, "clubs", 2, true, false⟩

def demoAttacker : Player :=
  ⟨1, "Alice", 100, 100, [lethalCard, ⟨101, "clubs", 5, false, false⟩], [lethalCard],
    0, 3, 3, 0, none⟩

def demoVictim : Player := ⟨2, "Bob", 3, 100, [], [], 0, 3, 3, 0, none⟩

def demoLethalRoom : Room :=
  ⟨"classic", [demoAttacker, demoVictim], "playing", 0, 5,
    [⟨102, "hearts", 3, false, false⟩], [], none⟩

/-- A selected pair of fives: One Pair, damage 5 + 5 + 5 = 15. -/
def pairFiveA : Card := ⟨110, "clubs", 5, true, false⟩

def pairFiveB : Card := ⟨111, "hearts", 5, true, false⟩

def demoC5Cur : Player :=
  ⟨1, "Alice", 100, 100, [pairFiveA, pairFiveB], [pairFiveA, pairFiveB], 0, 3, 3, 0, none⟩

/-- Opponent with armor 10, health 100, no prediction (spec example). -/
def demoC5Enemy : Player := ⟨2, "Bob", 100, 100, [], [], 0, 3, 3, 10, none⟩

def demoC5Room : Room :=
  ⟨"tactical", [demoC5Cur, demoC5Enemy], "playing", 0, 2,
    [⟨120, "spades", 7, false, false⟩], [], none⟩

def demoWaitingRoom : Room := ⟨"classic", [demoP1, demoP2], "waiting", 0, 1, [], [], none⟩

def demoStarted : Room := (stepRoom (startGame (some demoWaitingRoom) cz 0)).getD default

def demoFirstCardId : Nat := ((demoStarted.players.headD default).hand.headD default).id

def demoMarked : Room :=
  (stepRoom (markForDiscard (some demoStarted) true 1 demoFirstCardId)).getD default

def demoDiscarded : Room := (stepRoom (discardCards (some demoMarked) true 1)).getD default

/-- A one-player room in the ended state (the other player left). -/
def demoSoloRoom : Room :=
  ⟨"classic", [demoP1], "ended", 0, 7, [], [], some ⟨"One Pair", 15⟩⟩

/-- A selected 7 of clubs: a one-card High Card play, damage 1 + 7 = 8. -/
def recPlayedCard : Card := ⟨120, "clubs", 7, true, false⟩

def recDeckCard : Card := ⟨121, "hearts", 9, false, false⟩

def recDiscCard : Card := ⟨122, "spades", 4, false, true⟩

def demoRecCur : Player :=
  ⟨1, "Alice", 150, 150, [recPlayedCard], [recPlayedCard], 0, 3, 3, 0, none⟩

def demoRecEnemy : Player := ⟨2, "Bob", 150, 150, [], [], 0, 3, 3, 0, none⟩

/-- A Recycling room whose draw pile is down to one card and whose
discard pile is non-empty: the next play-hand triggers the reshuffle. -/
def demoRecRoom : Room :=
  ⟨"recycling", [demoRecCur, demoRecEnemy], "playing", 0, 2,
    [recDeckCard], [recDiscCard], none⟩

/-- The multiset of card ids of a card list. -/
def idsOf (l : List Card) : Multiset Nat := ((l.map (fun c => c.id) : List Nat) : Multiset Nat)

/-- The multiset of card ids held across all players' hands. -/
def handIds (ps : List Player) : Multiset Nat :=
  (((ps.map fun p => p.hand.map (fun c => c.id)).flatten : List Nat) : Multiset Nat)

theorem distinctVals_mem (l : List Nat) (a : Nat) : a ∈ distinctVals l ↔ a ∈ l := by
  induction l with
  | nil => simp [distinctVals]
  | cons b t ih =>
    by_cases hb : b ∈ distinctVals t
    · simp only [distinctVals, if_pos hb, List.mem_cons]
      rw [ih]
      constructor
      · exact fun h => Or.inr h
      · rintro (rfl | h)
        · exact ih.1 hb
        · exact h
    · simp only [distinctVals, if_neg hb, List.mem_cons]
      rw [ih]

theorem distinctVals_nodup (l : List Nat) : (distinctVals l).Nodup := by
  induction l with
  | nil => simp [distinctVals]
  | cons b t ih =>
    by_cases hb : b ∈ distinctVals t
    · simpa [distinctVals, hb] using ih
    · simp [distinctVals, hb, List.nodup_cons, ih]

theorem distinctVals_length_le (l : List Nat) : (distinctVals l).length ≤ l.length := by
  induction l with
  | nil => simp [distinctVals]
  | cons b t ih =>
    by_cases hb : b ∈ distinctVals t
    · simp only [distinctVals, if_pos hb, List.length_cons]
      omega
    · simp only [distinctVals, if_neg hb, List.length_cons]
      omega

theorem distinctVals_length_eq_iff (l : List Nat) :
    (distinctVals l).length = l.length ↔ l.Nodup := by
  induction l with
  | nil => simp [distinctVals]
  | cons b t ih =>
    by_cases hb : b ∈ distinctVals t
    · have hle := distinctVals_length_le t
      have hbt : b ∈ t := (distinctVals_mem t b).1 hb
      simp only [distinctVals, if_pos hb, List.length_cons, List.nodup_cons]
      constructor
      · intro h; omega
      · rintro ⟨hnb, -⟩; exact absurd hbt hnb
    · have hbt : ¬ b ∈ t := fun h => hb ((distinctVals_mem t b).2 h)
      simp only [distinctVals, if_neg hb, List.length_cons, List.nodup_cons]
      constructor
      · intro h
        exact ⟨hbt, ih.1 (by omega)⟩
      · rintro ⟨-, hnd⟩
        have := ih.2 hnd
        omega

theorem distinctVals_perm_dedup (l : List Nat) : (distinctVals l).Perm l.dedup := by
  rw [List.perm_ext_iff_of_nodup (distinctVals_nodup l) l.nodup_dedup]
  intro a
  rw [distinctVals_mem, List.mem_dedup]

theorem insertDesc_perm (a : Nat) (l : List Nat) : (insertDesc a l).Perm (a :: l) := by
  induction l with
  | nil => rfl
  | cons b t ih =>
    by_cases h : b ≤ a
    · simp [insertDesc, h]
    · simp only [insertDesc, if_neg h]
      exact (ih.cons b).trans (List.Perm.swap a b t)

theorem sortDescNat_perm (l : List Nat) : (sortDescNat l).Perm l := by
  induction l with
  | nil => rfl
  | cons a t ih => exact (insertDesc_perm a (sortDescNat t)).trans (ih.cons a)

theorem insertDesc_sorted (a : Nat) (l : List Nat)
    (h : l.Pairwise fun x y => y ≤ x) : (insertDesc a l).Pairwise fun x y => y ≤ x := by
  induction l with
  | nil => simp [insertDesc]
  | cons b t ih =>
    rcases List.pairwise_cons.1 h with ⟨hb, ht⟩
    by_cases hba : b ≤ a
    · simp only [insertDesc, if_pos hba]
      refine List.pairwise_cons.2 ⟨?_, h⟩
      intro c hc
      rcases List.mem_cons.1 hc with rfl | hc
      · exact hba
      · exact le_trans (hb c hc) hba
    · simp only [insertDesc, if_neg hba]
      refine List.pairwise_cons.2 ⟨?_, ih ht⟩
      intro c hc
      rcases List.mem_cons.1 ((insertDesc_perm a t).mem_iff.1 hc) with rfl | hc2
      · omega
      · exact hb c hc2

theorem sortDescNat_sorted (l : List Nat) :
    (sortDescNat l).Pairwise fun x y => y ≤ x := by
  induction l with
  | nil => simp [sortDescNat]
  | cons a t ih => exact insertDesc_sorted a (sortDescNat t) ih

theorem countsOf_perm (ranks : List Nat) :
    (countsOf ranks).Perm ((distinctVals ranks).map fun r => ranks.count r) :=
  sortDescNat_perm _

theorem counts_desc (ranks : List Nat) :
    (countsOf ranks).Pairwise fun x y => y ≤ x :=
  sortDescNat_sorted _

theorem countsOf_sum (ranks : List Nat) : (countsOf ranks).sum = ranks.length := by
  rw [(countsOf_perm ranks).sum_eq, (((distinctVals_perm_dedup ranks).map _).sum_eq :
    ((distinctVals ranks).map fun r => ranks.count r).sum = _)]
  exact List.sum_map_count_dedup_eq_length ranks

theorem countsOf_mem (ranks : List Nat) (x : Nat) :
    x ∈ countsOf ranks ↔ ∃ r, r ∈ ranks ∧ ranks.count r = x := by
  rw [(countsOf_perm ranks).mem_iff, List.mem_map]
  constructor
  · rintro ⟨r, hr, rfl⟩
    exact ⟨r, (distinctVals_mem ranks r).1 hr, rfl⟩
  · rintro ⟨r, hr, rfl⟩
    exact ⟨r, (distinctVals_mem ranks r).2 hr, rfl⟩

theorem countsOf_pos (ranks : List Nat) : ∀ x ∈ countsOf ranks, 1 ≤ x := by
  intro x hx
  rcases (countsOf_mem ranks x).1 hx with ⟨r, hr, rfl⟩
  exact List.count_pos_iff.2 hr

theorem countsOf_length (ranks : List Nat) :
    (countsOf ranks).length = (distinctVals ranks).length := by
  rw [(countsOf_perm ranks).length_eq, List.length_map]

theorem countsOf_ne_nil (ranks : List Nat) (h : ranks ≠ []) : countsOf ranks ≠ [] := by
  intro hc
  have hs := countsOf_sum ranks
  rw [hc] at hs
  simp only [List.sum_nil] at hs
  exact h (List.length_eq_zero.1 hs.symm)

theorem countsOf_head_mem (ranks : List Nat) (h : ranks ≠ []) :
    (countsOf ranks).getD 0 0 ∈ countsOf ranks := by
  rcases hc : countsOf ranks with _ | ⟨c, t⟩
  · exact absurd hc (countsOf_ne_nil ranks h)
  · simp

theorem counts_head_eq_length_iff (ranks : List Nat) (h : ranks ≠ []) :
    (countsOf ranks).getD 0 0 = ranks.length ↔ ∀ x ∈ ranks, ∀ y ∈ ranks, x = y := by
  constructor
  · intro hh x hx y hy
    have hm := countsOf_head_mem ranks h
    rw [hh] at hm
    rcases (countsOf_mem ranks _).1 hm with ⟨r, hr, hcnt⟩
    have hall := List.count_eq_length.1 hcnt
    have h1 := hall x hx
    have h2 := hall y hy
    omega
  · intro hall
    rcases hne : ranks with _ | ⟨a, t⟩
    · exact absurd hne h
    · subst hne
      have hav : ∀ x ∈ a :: t, x = a := fun x hx => hall x hx a (List.mem_cons_self a t)
      have hdv : distinctVals (a :: t) = [a] := by
        have hnd := distinctVals_nodup (a :: t)
        have hmem : ∀ x, x ∈ distinctVals (a :: t) ↔ x = a := by
          intro x
          rw [distinctVals_mem]
          constructor
          · exact fun hx => hav x hx
          · rintro rfl
            exact List.mem_cons_self _ t
        rcases hd : distinctVals (a :: t) with _ | ⟨b, u⟩
        · have hma : a ∈ distinctVals (a :: t) := (hmem a).2 rfl
          rw [hd] at hma
          simp at hma
        · have hb : b = a := (hmem b).1 (hd ▸ List.mem_cons_self b u)
          subst hb
          rcases hu : u with _ | ⟨c, v⟩
          · rfl
          · have hc : c ∈ distinctVals (b :: t) := by
              rw [hd, hu]
              simp
            have hca : c = b := (hmem c).1 hc
            rw [hd, hu, hca] at hnd
            simp at hnd
      have hcc : countsOf (a :: t) = [(a :: t).count a] := by
        rw [countsOf, hdv]
        rfl
      have hcl : (a :: t).count a = (a :: t).length :=
        List.count_eq_length.2 fun b hb => (hav b hb).symm
      rw [hcc, hcl]
      rfl

theorem counts_pair_pair_iff (ranks : List Nat) (h4 : ranks.length = 4) :
    ((countsOf ranks).getD 0 0 = 2 ∧ (countsOf ranks).getD 1 0 = 2) ↔
      ∀ r ∈ ranks, ranks.count r = 2 := by
  constructor
  · rintro ⟨h0, h1⟩
    have hsum := countsOf_sum ranks
    rw [h4] at hsum
    have hpos := countsOf_pos ranks
    rcases hc : countsOf ranks with _ | ⟨c1, t⟩
    · rw [hc] at h0
      simp at h0
    · rcases t with _ | ⟨c2, u⟩
      · rw [hc] at h1
        simp [List.getD] at h1
      · rw [hc] at h0 h1
        simp only [List.getD_cons_zero, List.getD_cons_succ] at h0 h1
        have hu : u = [] := by
          rcases u with _ | ⟨x, v⟩
          · rfl
          · have hx : 1 ≤ x := hpos x (by rw [hc]; simp)
            rw [hc] at hsum
            simp [List.sum_cons] at hsum
            omega
        intro r hr
        have hrc : ranks.count r ∈ countsOf ranks := (countsOf_mem ranks _).2 ⟨r, hr, rfl⟩
        rw [hc, hu] at hrc
        rcases List.mem_cons.1 hrc with he | he
        · omega
        · simp at he
          omega
  · intro hall
    have hmem : ∀ x ∈ countsOf ranks, x = 2 := by
      intro x hx
      rcases (countsOf_mem ranks x).1 hx with ⟨r, hr, rfl⟩
      exact hall r hr
    have hsum := countsOf_sum ranks
    rw [h4] at hsum
    rcases hc : countsOf ranks with _ | ⟨c1, t⟩
    · rw [hc] at hsum
      simp at hsum
    · rcases t with _ | ⟨c2, u⟩
      · have he1 := hmem c1 (by rw [hc]; simp)
        rw [hc] at hsum
        simp [List.sum_cons] at hsum
        omega
      · rcases u with _ | ⟨x, v⟩
        · have he1 := hmem c1 (by rw [hc]; simp)
          have he2 := hmem c2 (by rw [hc]; simp)
          simp [he1, he2]
        · have he1 := hmem c1 (by rw [hc]; simp)
          have he2 := hmem c2 (by rw [hc]; simp)
          have he3 := hmem x (by rw [hc]; simp)
          rw [hc] at hsum
          simp [List.sum_cons] at hsum
          omega

theorem counts_three_two_iff (ranks : List Nat) (h5 : ranks.length = 5) :
    ((countsOf ranks).getD 0 0 = 3 ∧ (countsOf ranks).getD 1 0 = 2) ↔
      ((∃ r ∈ ranks, ranks.count r = 3) ∧ ∃ s ∈ ranks, ranks.count s = 2) := by
  constructor
  · rintro ⟨h0, h1⟩
    have hsum := countsOf_sum ranks
    rw [h5] at hsum
    have hpos := countsOf_pos ranks
    rcases hc : countsOf ranks with _ | ⟨c1, t⟩
    · rw [hc] at h0
      simp at h0
    · rcases t with _ | ⟨c2, u⟩
      · rw [hc] at h1
        simp [List.getD] at h1
      · rw [hc] at h0 h1
        simp only [List.getD_cons_zero, List.getD_cons_succ] at h0 h1
        have hu : u = [] := by
          rcases u with _ | ⟨x, v⟩
          · rfl
          · have hx : 1 ≤ x := hpos x (by rw [hc]; simp)
            rw [hc] at hsum
            simp [List.sum_cons] at hsum
            omega
        constructor
        · have h3m : (3 : Nat) ∈ countsOf ranks := by
            rw [hc]
            simp [h0]
          rcases (countsOf_mem ranks 3).1 h3m with ⟨r, hr, hcr⟩
          exact ⟨r, hr, hcr⟩
        · have h2m : (2 : Nat) ∈ countsOf ranks := by
            rw [hc, hu]
            simp [h1]
          rcases (countsOf_mem ranks 2).1 h2m with ⟨s, hs, hcs⟩
          exact ⟨s, hs, hcs⟩
  · rintro ⟨⟨r, hr, hr3⟩, ⟨s, hs, hs2⟩⟩
    have h3m : (3 : Nat) ∈ countsOf ranks := (countsOf_mem ranks 3).2 ⟨r, hr, hr3⟩
    have h2m : (2 : Nat) ∈ countsOf ranks := (countsOf_mem ranks 2).2 ⟨s, hs, hs2⟩
    have hsum := countsOf_sum ranks
    rw [h5] at hsum
    have hpos := countsOf_pos ranks
    have hdesc := counts_desc ranks
    rcases hc : countsOf ranks with _ | ⟨c1, t⟩
    · rw [hc] at h3m
      simp at h3m
    · rw [hc] at h3m h2m hdesc
      rw [hc] at hsum
      simp only [List.sum_cons] at hsum
      have hc1le : ∀ y ∈ t, y ≤ c1 := fun y hy => List.rel_of_pairwise_cons hdesc hy
      have hts : ∀ y ∈ t, y ≤ t.sum :=
        fun y hy => List.single_le_sum (fun x _ => Nat.zero_le x) y hy
      have hc13 : c1 = 3 := by
        rcases List.mem_cons.1 h3m with h | h
        · omega
        · have hA := hts 3 h
          have hB := hc1le 3 h
          omega
      subst hc13
      have h2t : 2 ∈ t := by
        rcases List.mem_cons.1 h2m with h | h
        · omega
        · exact h
      have htpos : ∀ y ∈ t, 1 ≤ y :=
        fun y hy => hpos y (by rw [hc]; exact List.mem_cons_of_mem _ hy)
      have ht : t = [2] := by
        rcases t with _ | ⟨x, w⟩
        · simp at h2t
        · rcases w with _ | ⟨y, z⟩
          · have : 2 = x := by simpa using h2t
            rw [← this]
          · have hx := htpos x (by simp)
            have hy := htpos y (by simp)
            simp only [List.sum_cons] at hsum
            rcases List.mem_cons.1 h2t with h | h
            · omega
            · rcases List.mem_cons.1 h with h | h
              · omega
              · have := List.single_le_sum (fun q (_ : q ∈ z) => Nat.zero_le q) 2 h
                omega
      rw [ht]
      exact ⟨rfl, rfl⟩

theorem countsOf_nodup_ranks (ranks : List Nat) (h : ranks.Nodup) :
    countsOf ranks = List.replicate ranks.length 1 := by
  have hmem : ∀ x ∈ countsOf ranks, x = 1 := by
    intro x hx
    rcases (countsOf_mem ranks x).1 hx with ⟨r, hr, rfl⟩
    exact List.count_eq_one_of_mem h hr
  have hlen : (countsOf ranks).length = ranks.length := by
    rw [countsOf_length]
    exact (distinctVals_length_eq_iff ranks).2 h
  exact List.eq_replicate_iff.2 ⟨hlen, hmem⟩

theorem specAllRanksEqual_iff (cards : List Card) :
    specAllRanksEqual cards = true ↔ ∀ x ∈ cards, ∀ y ∈ cards, x.rank = y.rank := by
  rcases cards with _ | ⟨a, t⟩
  · simp [specAllRanksEqual]
  · simp only [specAllRanksEqual, List.headD_cons, List.all_eq_true, beq_iff_eq]
    constructor
    · intro h x hx y hy
      rw [h x hx, h y hy]
    · intro h c hc
      exact h c hc a (List.mem_cons_self a t)

theorem specAllSameSuit_iff (cards : List Card) :
    specAllSameSuit cards = true ↔ ∀ x ∈ cards, ∀ y ∈ cards, x.suit = y.suit := by
  rcases cards with _ | ⟨a, t⟩
  · simp [specAllSameSuit]
  · simp only [specAllSameSuit, List.headD_cons, List.all_eq_true, beq_iff_eq]
    constructor
    · intro h x hx y hy
      rw [h x hx, h y hy]
    · intro h c hc
      exact h c hc a (List.mem_cons_self a t)

theorem allRanksEqual_iff_ranklist (cards : List Card) :
    (∀ x ∈ cards, ∀ y ∈ cards, x.rank = y.rank) ↔
      ∀ x ∈ cards.map (·.rank), ∀ y ∈ cards.map (·.rank), x = y := by
  constructor
  · intro h x hx y hy
    rcases List.mem_map.1 hx with ⟨cx, hcx, rfl⟩
    rcases List.mem_map.1 hy with ⟨cy, hcy, rfl⟩
    exact h cx hcx cy hcy
  · intro h x hx y hy
    exact h x.rank (List.mem_map_of_mem _ hx) y.rank (List.mem_map_of_mem _ hy)

theorem isFlushSorted_eq_specFlush (l : List Card) : isFlushSorted l = specFlush l := by
  rcases l with _ | ⟨a, t⟩
  · rfl
  · have hmap : ∀ u : List Card,
        ((u.map fun x => x.suit).all fun s => s == a.suit) = u.all fun c => c.suit == a.suit := by
      intro u
      induction u with
      | nil => rfl
      | cons x w ih => simp [ih]
    simp [isFlushSorted, specFlush, specAllSameSuit, hmap, Bool.and_comm]

theorem foldl_max_choice (t : List Nat) : ∀ a : Nat, t.foldl max a = a ∨ t.foldl max a ∈ t := by
  induction t with
  | nil => intro a; exact Or.inl rfl
  | cons b s ih =>
    intro a
    rw [List.foldl_cons]
    rcases ih (max a b) with h | h
    · rw [h]
      rcases max_choice a b with hm | hm
      · exact Or.inl hm
      · exact Or.inr (by rw [hm]; exact List.mem_cons_self b s)
    · exact Or.inr (List.mem_cons_of_mem b h)

theorem foldl_max_le_self (t : List Nat) : ∀ a : Nat, a ≤ t.foldl max a := by
  induction t with
  | nil => intro a; exact le_refl a
  | cons b s ih =>
    intro a
    rw [List.foldl_cons]
    exact le_trans (le_max_left a b) (ih (max a b))

theorem mem_le_foldl_max (t : List Nat) : ∀ (a x : Nat), x ∈ t → x ≤ t.foldl max a := by
  induction t with
  | nil => intro a x hx; simp at hx
  | cons b s ih =>
    intro a x hx
    rw [List.foldl_cons]
    rcases List.mem_cons.1 hx with rfl | hx2
    · exact le_trans (le_max_right a x) (foldl_max_le_self s _)
    · exact ih _ x hx2

theorem natListMax_mem (l : List Nat) (h : l ≠ []) : natListMax l ∈ l := by
  rcases l with _ | ⟨a, t⟩
  · exact absurd rfl h
  · rcases foldl_max_choice t a with hm | hm
    · rw [natListMax, hm]
      exact List.mem_cons_self a t
    · exact List.mem_cons_of_mem a hm

theorem le_natListMax (l : List Nat) (x : Nat) (hx : x ∈ l) : x ≤ natListMax l := by
  rcases l with _ | ⟨a, t⟩
  · simp at hx
  · rcases List.mem_cons.1 hx with rfl | hx2
    · exact foldl_max_le_self t x
    · exact mem_le_foldl_max t a x hx2

theorem foldl_min_choice (t : List Nat) : ∀ a : Nat, t.foldl min a = a ∨ t.foldl min a ∈ t := by
  induction t with
  | nil => intro a; exact Or.inl rfl
  | cons b s ih =>
    intro a
    rw [List.foldl_cons]
    rcases ih (min a b) with h | h
    · rw [h]
      rcases min_choice a b with hm | hm
      · exact Or.inl hm
      · exact Or.inr (by rw [hm]; exact List.mem_cons_self b s)
    · exact Or.inr (List.mem_cons_of_mem b h)

theorem foldl_min_le_self (t : List Nat) : ∀ a : Nat, t.foldl min a ≤ a := by
  induction t with
  | nil => intro a; exact le_refl a
  | cons b s ih =>
    intro a
    rw [List.foldl_cons]
    exact le_trans (ih (min a b)) (min_le_left a b)

theorem foldl_min_le_mem (t : List Nat) : ∀ (a x : Nat), x ∈ t → t.foldl min a ≤ x := by
  induction t with
  | nil => intro a x hx; simp at hx
  | cons b s ih =>
    intro a x hx
    rw [List.foldl_cons]
    rcases List.mem_cons.1 hx with rfl | hx2
    · exact le_trans (foldl_min_le_self s _) (min_le_right a x)
    · exact ih _ x hx2

theorem natListMin_mem (l : List Nat) (h : l ≠ []) : natListMin l ∈ l := by
  rcases l with _ | ⟨a, t⟩
  · exact absurd rfl h
  · rcases foldl_min_choice t a with hm | hm
    · rw [natListMin, hm]
      exact List.mem_cons_self a t
    · exact List.mem_cons_of_mem a hm

theorem natListMin_le (l : List Nat) (x : Nat) (hx : x ∈ l) : natListMin l ≤ x := by
  rcases l with _ | ⟨a, t⟩
  · simp at hx
  · rcases List.mem_cons.1 hx with rfl | hx2
    · exact foldl_min_le_self t x
    · exact foldl_min_le_mem t a x hx2

theorem natListMax_perm {l₁ l₂ : List Nat} (h : l₁.Perm l₂) :
    natListMax l₁ = natListMax l₂ := by
  by_cases hn : l₁ = []
  · subst hn
    rw [h.nil_eq]
  · have hn₂ : l₂ ≠ [] := by
      intro he
      subst he
      exact hn h.eq_nil
    exact Nat.le_antisymm
      (le_natListMax l₂ _ (h.mem_iff.1 (natListMax_mem l₁ hn)))
      (le_natListMax l₁ _ (h.mem_iff.2 (natListMax_mem l₂ hn₂)))

theorem natListMin_perm {l₁ l₂ : List Nat} (h : l₁.Perm l₂) :
    natListMin l₁ = natListMin l₂ := by
  by_cases hn : l₁ = []
  · subst hn
    rw [h.nil_eq]
  · have hn₂ : l₂ ≠ [] := by
      intro he
      subst he
      exact hn h.eq_nil
    exact Nat.le_antisymm
      (natListMin_le l₁ _ (h.mem_iff.2 (natListMin_mem l₂ hn₂)))
      (natListMin_le l₂ _ (h.mem_iff.1 (natListMin_mem l₁ hn)))

theorem sorted_coe_eq_iff (xs ys : List Nat) (hx : List.Sorted (· ≤ ·) xs)
    (hy : List.Sorted (· ≤ ·) ys) : ((xs : Multiset Nat) = (ys : Multiset Nat)) ↔ xs = ys := by
  constructor
  · intro h
    exact List.eq_of_perm_of_sorted (Multiset.coe_eq_coe.1 h) hx hy
  · rintro rfl
    rfl

theorem sortCards_sorted (cards : List Card) : List.Sorted byRank (sortCards cards) :=
  List.sorted_insertionSort byRank cards

theorem sortCards_perm (cards : List Card) : (sortCards cards).Perm cards :=
  List.perm_insertionSort byRank cards

theorem list_length_eq_four {α : Type} {l : List α} (h : l.length = 4) :
    ∃ a b c d, l = [a, b, c, d] := by
  rcases l with _ | ⟨a, l⟩
  · simp at h
  rcases l with _ | ⟨b, l⟩
  · simp at h
  rcases l with _ | ⟨c, l⟩
  · simp at h
  rcases l with _ | ⟨d, l⟩
  · simp at h
  rcases l with _ | ⟨e, l⟩
  · exact ⟨a, b, c, d, rfl⟩
  · simp at h

theorem list_length_eq_five {α : Type} {l : List α} (h : l.length = 5) :
    ∃ a b c d e, l = [a, b, c, d, e] := by
  rcases l with _ | ⟨a, l⟩
  · simp at h
  rcases l with _ | ⟨b, l⟩
  · simp at h
  rcases l with _ | ⟨c, l⟩
  · simp at h
  rcases l with _ | ⟨d, l⟩
  · simp at h
  rcases l with _ | ⟨e, l⟩
  · simp at h
  rcases l with _ | ⟨f, l⟩
  · exact ⟨a, b, c, d, e, rfl⟩
  · simp at h

theorem sorted_five {x1 x2 x3 x4 x5 : Nat} (a1 : x1 ≤ x2) (a2 : x2 ≤ x3)
    (a3 : x3 ≤ x4) (a4 : x4 ≤ x5) : List.Sorted (· ≤ ·) [x1, x2, x3, x4, x5] := by
  apply List.Pairwise.cons
  · intro y hy
    simp at hy
    rcases hy with rfl | rfl | rfl | rfl <;> omega
  apply List.Pairwise.cons
  · intro y hy
    simp at hy
    rcases hy with rfl | rfl | rfl <;> omega
  apply List.Pairwise.cons
  · intro y hy
    simp at hy
    rcases hy with rfl | rfl <;> omega
  apply List.Pairwise.cons
  · intro y hy
    simp at hy
    subst hy
    omega
  apply List.Pairwise.cons
  · intro y hy
    simp at hy
  exact List.Pairwise.nil

theorem straightish_eq_spec (l : List Card) (hs : List.Sorted byRank l) (h5 : l.length = 5) :
    (isStraightSorted l || isLowStraightSorted l) = specStraight l := by
  obtain ⟨a, b, c, d, e, rfl⟩ := list_length_eq_five h5
  have h12 : a.rank ≤ b.rank := List.rel_of_pairwise_cons hs (by simp)
  have hs2 := (List.pairwise_cons.1 hs).2
  have h23 : b.rank ≤ c.rank := List.rel_of_pairwise_cons hs2 (by simp)
  have hs3 := (List.pairwise_cons.1 hs2).2
  have h34 : c.rank ≤ d.rank := List.rel_of_pairwise_cons hs3 (by simp)
  have hs4 := (List.pairwise_cons.1 hs3).2
  have h45 : d.rank ≤ e.rank := List.rel_of_pairwise_cons hs4 (by simp)
  have hsx : List.Sorted (· ≤ ·) [a.rank, b.rank, c.rank, d.rank, e.rank] :=
    sorted_five h12 h23 h34 h45
  have hwheeliff : ((([a.rank, b.rank, c.rank, d.rank, e.rank] : List Nat) : Multiset Nat)
      = (([1, 2, 3, 4, 5] : List Nat) : Multiset Nat)) ↔
      [a.rank, b.rank, c.rank, d.rank, e.rank] = [1, 2, 3, 4, 5] :=
    sorted_coe_eq_iff _ _ hsx (sorted_five (by omega) (by omega) (by omega) (by omega))
  have hmax : natListMax [a.rank, b.rank, c.rank, d.rank, e.rank] = e.rank := by
    have hb : ∀ x ∈ [a.rank, b.rank, c.rank, d.rank, e.rank], x ≤ e.rank := by
      intro x hx
      simp at hx
      rcases hx with rfl | rfl | rfl | rfl | rfl <;> omega
    exact Nat.le_antisymm (hb _ (natListMax_mem _ (by simp))) (le_natListMax _ _ (by simp))
  have hmin : natListMin [a.rank, b.rank, c.rank, d.rank, e.rank] = a.rank := by
    have hb : ∀ x ∈ [a.rank, b.rank, c.rank, d.rank, e.rank], a.rank ≤ x := by
      intro x hx
      simp at hx
      rcases hx with rfl | rfl | rfl | rfl | rfl <;> omega
    exact Nat.le_antisymm (natListMin_le _ _ (by simp)) (hb _ (natListMin_mem _ (by simp)))
  have hnd : ((distinctVals [a.rank, b.rank, c.rank, d.rank, e.rank]).length = 5) ↔
      ([a.rank, b.rank, c.rank, d.rank, e.rank] : List Nat).Nodup := by
    simpa using distinctVals_length_eq_iff [a.rank, b.rank, c.rank, d.rank, e.rank]
  rw [Bool.eq_iff_iff]
  simp only [isStraightSorted, isLowStraightSorted, specStraight, specWheel, ranksOf,
    List.map_cons, List.map_nil, hmax, hmin, Bool.or_eq_true, Bool.and_eq_true,
    beq_iff_eq, decide_eq_true_eq, Bool.not_eq_true', beq_eq_false_iff_ne, ne_eq,
    List.length_cons, List.length_nil, List.getD_cons_zero, List.getD_cons_succ]
  rw [show ({1, 2, 3, 4, 5} : Multiset Nat) = (([1, 2, 3, 4, 5] : List Nat) : Multiset Nat)
    from rfl, hnd, hwheeliff]
  simp only [true_and]
  constructor
  · rintro (⟨⟨hnd1, hne⟩, hspan⟩ | ⟨hnd1, heq⟩)
    · exact ⟨hnd1, Or.inr hspan⟩
    · exact ⟨hnd1, Or.inl heq⟩
  · rintro ⟨hnd1, heq | hspan⟩
    · exact Or.inr ⟨hnd1, heq⟩
    · by_cases heq2 : [a.rank, b.rank, c.rank, d.rank, e.rank] = [1, 2, 3, 4, 5]
      · exact Or.inr ⟨hnd1, heq2⟩
      · exact Or.inl ⟨⟨hnd1, heq2⟩, hspan⟩

theorem specAllRanksEqual_perm {c₁ c₂ : List Card} (h : c₁.Perm c₂) :
    specAllRanksEqual c₁ = specAllRanksEqual c₂ := by
  rw [Bool.eq_iff_iff, specAllRanksEqual_iff, specAllRanksEqual_iff]
  constructor
  · intro hall x hx y hy
    exact hall x (h.mem_iff.2 hx) y (h.mem_iff.2 hy)
  · intro hall x hx y hy
    exact hall x (h.mem_iff.1 hx) y (h.mem_iff.1 hy)

theorem specAllSameSuit_perm {c₁ c₂ : List Card} (h : c₁.Perm c₂) :
    specAllSameSuit c₁ = specAllSameSuit c₂ := by
  rw [Bool.eq_iff_iff, specAllSameSuit_iff, specAllSameSuit_iff]
  constructor
  · intro hall x hx y hy
    exact hall x (h.mem_iff.2 hx) y (h.mem_iff.2 hy)
  · intro hall x hx y hy
    exact hall x (h.mem_iff.1 hx) y (h.mem_iff.1 hy)

theorem specFlush_perm {c₁ c₂ : List Card} (h : c₁.Perm c₂) :
    specFlush c₁ = specFlush c₂ := by
  unfold specFlush
  rw [h.length_eq, specAllSameSuit_perm h]

theorem ranksOf_perm {c₁ c₂ : List Card} (h : c₁.Perm c₂) :
    (ranksOf c₁).Perm (ranksOf c₂) := h.map _

theorem ranks_multiset_perm {c₁ c₂ : List Card} (h : c₁.Perm c₂) :
    ((ranksOf c₁ : List Nat) : Multiset Nat) = (ranksOf c₂ : List Nat) :=
  Multiset.coe_eq_coe.2 (ranksOf_perm h)

theorem specWheel_perm {c₁ c₂ : List Card} (h : c₁.Perm c₂) :
    specWheel c₁ = specWheel c₂ := by
  unfold specWheel
  rw [ranks_multiset_perm h]

theorem specRoyalRanks_perm {c₁ c₂ : List Card} (h : c₁.Perm c₂) :
    specRoyalRanks c₁ = specRoyalRanks c₂ := by
  unfold specRoyalRanks
  rw [ranks_multiset_perm h]

theorem specStraight_perm {c₁ c₂ : List Card} (h : c₁.Perm c₂) :
    specStraight c₁ = specStraight c₂ := by
  unfold specStraight
  rw [specWheel_perm h, natListMax_perm (ranksOf_perm h), natListMin_perm (ranksOf_perm h),
    decide_eq_decide.2 (ranksOf_perm h).nodup_iff]

theorem specFullHouse_perm {c₁ c₂ : List Card} (h : c₁.Perm c₂) :
    specFullHouse c₁ = specFullHouse c₂ := by
  have hp := ranksOf_perm h
  have key : ∀ n : Nat, ((ranksOf c₁).any fun r => (ranksOf c₁).count r == n) =
      ((ranksOf c₂).any fun r => (ranksOf c₂).count r == n) := by
    intro n
    rw [Bool.eq_iff_iff]
    simp only [List.any_eq_true, beq_iff_eq]
    constructor
    · rintro ⟨r, hr, hc⟩
      refine ⟨r, hp.mem_iff.1 hr, ?_⟩
      rw [← hp.count_eq]
      exact hc
    · rintro ⟨r, hr, hc⟩
      refine ⟨r, hp.mem_iff.2 hr, ?_⟩
      rw [hp.count_eq]
      exact hc
  unfold specFullHouse
  rw [key 3, key 2]

theorem specTwoDistinctPairs_perm {c₁ c₂ : List Card} (h : c₁.Perm c₂) :
    specTwoDistinctPairs c₁ = specTwoDistinctPairs c₂ := by
  have hp := ranksOf_perm h
  unfold specTwoDistinctPairs
  rw [Bool.eq_iff_iff]
  simp only [List.all_eq_true, beq_iff_eq]
  constructor
  · intro hall r hr
    rw [← hp.count_eq]
    exact hall r (hp.mem_iff.2 hr)
  · intro hall r hr
    rw [hp.count_eq]
    exact hall r (hp.mem_iff.1 hr)

theorem specValidate_perm {c₁ c₂ : List Card} (h : c₁.Perm c₂) :
    specValidate c₁ = specValidate c₂ := by
  have hl := h.length_eq
  rcases hlen : c₁.length with _ | _ | _ | _ | _ | _ | n
  · rw [show specValidate c₁ = false by rw [specValidate, hlen],
      show specValidate c₂ = false by rw [specValidate, ← hl, hlen]]
  · rw [show specValidate c₁ = true by rw [specValidate, hlen],
      show specValidate c₂ = true by rw [specValidate, ← hl, hlen]]
  · rw [show specValidate c₁ = specAllRanksEqual c₁ by rw [specValidate, hlen],
      show specValidate c₂ = specAllRanksEqual c₂ by rw [specValidate, ← hl, hlen],
      specAllRanksEqual_perm h]
  · rw [show specValidate c₁ = specAllRanksEqual c₁ by rw [specValidate, hlen],
      show specValidate c₂ = specAllRanksEqual c₂ by rw [specValidate, ← hl, hlen],
      specAllRanksEqual_perm h]
  · rw [show specValidate c₁ = (specAllRanksEqual c₁ || specTwoDistinctPairs c₁) by
        rw [specValidate, hlen],
      show specValidate c₂ = (specAllRanksEqual c₂ || specTwoDistinctPairs c₂) by
        rw [specValidate, ← hl, hlen],
      specAllRanksEqual_perm h, specTwoDistinctPairs_perm h]
  · rw [show specValidate c₁ = (specRoyalFlush c₁ || specStraightFlush c₁ || specFullHouse c₁
        || specFlush c₁ || specStraight c₁) by rw [specValidate, hlen],
      show specValidate c₂ = (specRoyalFlush c₂ || specStraightFlush c₂ || specFullHouse c₂
        || specFlush c₂ || specStraight c₂) by rw [specValidate, ← hl, hlen]]
    unfold specRoyalFlush specStraightFlush
    rw [specFlush_perm h, specFullHouse_perm h, specStraight_perm h, specRoyalRanks_perm h]
  · rw [show specValidate c₁ = false by rw [specValidate, hlen]; rfl,
      show specValidate c₂ = false by rw [specValidate, ← hl, hlen]; rfl]

theorem list_length_ge_six {α : Type} {l : List α} {n : Nat} (h : l.length = n + 6) :
    ∃ a b c d e f t, l = a :: b :: c :: d :: e :: f :: t := by
  rcases l with _ | ⟨a, l⟩
  · simp at h
  rcases l with _ | ⟨b, l⟩
  · simp at h
  rcases l with _ | ⟨c, l⟩
  · simp at h
  rcases l with _ | ⟨d, l⟩
  · simp at h
  rcases l with _ | ⟨e, l⟩
  · simp at h
  rcases l with _ | ⟨f, l⟩
  · simp at h
  exact ⟨a, b, c, d, e, f, l, rfl⟩

theorem validateSorted_eq_spec (l : List Card) (hs : List.Sorted byRank l) :
    (validateSorted l).valid = specValidate l := by
  rcases hl : l.length with _ | _ | _ | _ | _ | _ | n
  · obtain rfl := List.length_eq_zero.1 hl
    rfl
  · obtain ⟨x, rfl⟩ := List.length_eq_one.1 hl
    rfl
  · obtain ⟨a, b, rfl⟩ := List.length_eq_two.1 hl
    have hkey := counts_head_eq_length_iff [a.rank, b.rank] (by simp)
    simp only [List.length_cons, List.length_nil, Nat.zero_add] at hkey
    have hspec : specValidate [a, b] = specAllRanksEqual [a, b] := rfl
    by_cases hc : (countsOf [a.rank, b.rank]).getD 0 0 = 2
    · have hall := hkey.1 hc
      have hT : specAllRanksEqual [a, b] = true := by
        rw [specAllRanksEqual_iff, allRanksEqual_iff_ranklist]
        simpa using hall
      rw [hspec, hT]
      have hc2 : (countsOf [a.rank, b.rank])[0]?.getD 0 = 2 := by
        rw [← List.getD_eq_getElem?_getD]
        exact hc
      simp [validateSorted, hc2]
    · have hF : specAllRanksEqual [a, b] = false := by
        rcases hB : specAllRanksEqual [a, b]
        · rfl
        · exfalso
          apply hc
          apply hkey.2
          have := (allRanksEqual_iff_ranklist [a, b]).1 ((specAllRanksEqual_iff [a, b]).1 hB)
          simpa using this
      rw [hspec, hF]
      have hc2 : ¬ (countsOf [a.rank, b.rank])[0]?.getD 0 = 2 := by
        rw [← List.getD_eq_getElem?_getD]
        exact hc
      simp [validateSorted, hc2]
  · obtain ⟨a, b, c, rfl⟩ := List.length_eq_three.1 hl
    have hkey := counts_head_eq_length_iff [a.rank, b.rank, c.rank] (by simp)
    simp only [List.length_cons, List.length_nil, Nat.zero_add] at hkey
    have hspec : specValidate [a, b, c] = specAllRanksEqual [a, b, c] := rfl
    by_cases hc : (countsOf [a.rank, b.rank, c.rank]).getD 0 0 = 3
    · have hall := hkey.1 hc
      have hT : specAllRanksEqual [a, b, c] = true := by
        rw [specAllRanksEqual_iff, allRanksEqual_iff_ranklist]
        simpa using hall
      rw [hspec, hT]
      have hc2 : (countsOf [a.rank, b.rank, c.rank])[0]?.getD 0 = 3 := by
        rw [← List.getD_eq_getElem?_getD]
        exact hc
      simp [validateSorted, hc2]
    · have hF : specAllRanksEqual [a, b, c] = false := by
        rcases hB : specAllRanksEqual [a, b, c]
        · rfl
        · exfalso
          apply hc
          apply hkey.2
          have := (allRanksEqual_iff_ranklist [a, b, c]).1 ((specAllRanksEqual_iff [a, b, c]).1 hB)
          simpa using this
      rw [hspec, hF]
      have hc2 : ¬ (countsOf [a.rank, b.rank, c.rank])[0]?.getD 0 = 3 := by
        rw [← List.getD_eq_getElem?_getD]
        exact hc
      simp [validateSorted, hc2]
  · obtain ⟨a, b, c, d, rfl⟩ := list_length_eq_four hl
    have hkey1 := counts_head_eq_length_iff [a.rank, b.rank, c.rank, d.rank] (by simp)
    simp only [List.length_cons, List.length_nil, Nat.zero_add] at hkey1
    have hkey2 := counts_pair_pair_iff [a.rank, b.rank, c.rank, d.rank] (by simp)
    have hspec : specValidate [a, b, c, d]
        = (specAllRanksEqual [a, b, c, d] || specTwoDistinctPairs [a, b, c, d]) := rfl
    have hAE : specAllRanksEqual [a, b, c, d] = true ↔
        (countsOf [a.rank, b.rank, c.rank, d.rank]).getD 0 0 = 4 := by
      rw [specAllRanksEqual_iff, allRanksEqual_iff_ranklist]
      constructor
      · intro hx
        apply hkey1.2
        simpa using hx
      · intro hx
        simpa using hkey1.1 hx
    have hTP : specTwoDistinctPairs [a, b, c, d] = true ↔
        ((countsOf [a.rank, b.rank, c.rank, d.rank]).getD 0 0 = 2
          ∧ (countsOf [a.rank, b.rank, c.rank, d.rank]).getD 1 0 = 2) := by
      constructor
      · intro hx
        apply hkey2.2
        intro r hr
        have := List.all_eq_true.1 hx r (by simpa [ranksOf] using hr)
        simpa [ranksOf] using this
      · intro hx
        apply List.all_eq_true.2
        intro r hr
        have := hkey2.1 hx r (by simpa [ranksOf] using hr)
        simpa [ranksOf] using this
    by_cases h4 : (countsOf [a.rank, b.rank, c.rank, d.rank]).getD 0 0 = 4
    · have h4b : (countsOf [a.rank, b.rank, c.rank, d.rank])[0]?.getD 0 = 4 := by
        rw [← List.getD_eq_getElem?_getD]
        exact h4
      rw [hspec]
      simp [validateSorted, h4b, hAE.2 h4]
    · by_cases h22 : (countsOf [a.rank, b.rank, c.rank, d.rank]).getD 0 0 = 2
          ∧ (countsOf [a.rank, b.rank, c.rank, d.rank]).getD 1 0 = 2
      · have h4b : ¬ (countsOf [a.rank, b.rank, c.rank, d.rank])[0]?.getD 0 = 4 := by
          rw [← List.getD_eq_getElem?_getD]
          exact h4
        have h22b : (countsOf [a.rank, b.rank, c.rank, d.rank])[0]?.getD 0 = 2
            ∧ (countsOf [a.rank, b.rank, c.rank, d.rank])[1]?.getD 0 = 2 := by
          rw [← List.getD_eq_getElem?_getD, ← List.getD_eq_getElem?_getD]
          exact h22
        rw [hspec]
        simp [validateSorted, h4b, h22b, hTP.2 h22]
      · have hA : specAllRanksEqual [a, b, c, d] = false := by
          rcases hB : specAllRanksEqual [a, b, c, d]
          · rfl
          · exact absurd (hAE.1 hB) h4
        have hT : specTwoDistinctPairs [a, b, c, d] = false := by
          rcases hB : specTwoDistinctPairs [a, b, c, d]
          · rfl
          · exact absurd (hTP.1 hB) h22
        have h4b : ¬ (countsOf [a.rank, b.rank, c.rank, d.rank])[0]?.getD 0 = 4 := by
          rw [← List.getD_eq_getElem?_getD]
          exact h4
        have h22b : ¬ ((countsOf [a.rank, b.rank, c.rank, d.rank])[0]?.getD 0 = 2
            ∧ (countsOf [a.rank, b.rank, c.rank, d.rank])[1]?.getD 0 = 2) := by
          rw [← List.getD_eq_getElem?_getD, ← List.getD_eq_getElem?_getD]
          exact h22
        rw [hspec]
        simp [validateSorted, h4b, h22b, hA, hT]
  · obtain ⟨a, b, c, d, e, rfl⟩ := list_length_eq_five hl
    have hcode : (validateSorted [a, b, c, d, e]).valid =
        (isRoyalSorted [a, b, c, d, e]
          || isFlushSorted [a, b, c, d, e]
              && (isStraightSorted [a, b, c, d, e] || isLowStraightSorted [a, b, c, d, e])
          || decide ((countsOf [a.rank, b.rank, c.rank, d.rank, e.rank]).getD 0 0 = 3
              ∧ (countsOf [a.rank, b.rank, c.rank, d.rank, e.rank]).getD 1 0 = 2)
          || isFlushSorted [a, b, c, d, e]
          || (isStraightSorted [a, b, c, d, e] || isLowStraightSorted [a, b, c, d, e])) := by
      simp only [validateSorted, List.length_cons, List.length_nil, List.map_cons, List.map_nil]
      split_ifs <;> simp_all
    have hspec : specValidate [a, b, c, d, e]
        = (specRoyalFlush [a, b, c, d, e] || specStraightFlush [a, b, c, d, e]
          || specFullHouse [a, b, c, d, e] || specFlush [a, b, c, d, e]
          || specStraight [a, b, c, d, e]) := rfl
    have hflush := isFlushSorted_eq_specFlush [a, b, c, d, e]
    have hstr := straightish_eq_spec [a, b, c, d, e] hs (by simp)
    have hFH : decide ((countsOf [a.rank, b.rank, c.rank, d.rank, e.rank]).getD 0 0 = 3
        ∧ (countsOf [a.rank, b.rank, c.rank, d.rank, e.rank]).getD 1 0 = 2)
        = specFullHouse [a, b, c, d, e] := by
      rw [Bool.eq_iff_iff, decide_eq_true_eq, counts_three_two_iff _ (by simp)]
      unfold specFullHouse ranksOf
      simp only [List.map_cons, List.map_nil, Bool.and_eq_true, List.any_eq_true, beq_iff_eq]
    have hroyal1 : isRoyalSorted [a, b, c, d, e] = true → specFlush [a, b, c, d, e] = true := by
      intro hx
      rw [← hflush]
      unfold isRoyalSorted at hx
      simp only [Bool.and_eq_true] at hx
      exact hx.1.2
    have hroyal2 : specRoyalFlush [a, b, c, d, e] = true → specFlush [a, b, c, d, e] = true := by
      intro hx
      unfold specRoyalFlush at hx
      simp only [Bool.and_eq_true] at hx
      exact hx.1
    rw [hcode, hspec, hflush, hstr, hFH, Bool.eq_iff_iff,
      show specStraightFlush [a, b, c, d, e]
        = (specFlush [a, b, c, d, e] && specStraight [a, b, c, d, e]) from rfl]
    simp only [Bool.or_eq_true, Bool.and_eq_true, or_assoc]
    constructor
    · rintro (h | h)
      · exact Or.inr (Or.inr (Or.inr (Or.inl (hroyal1 h))))
      · exact Or.inr h
    · rintro (h | h)
      · exact Or.inr (Or.inr (Or.inr (Or.inl (hroyal2 h))))
      · exact Or.inr h
  · obtain ⟨a, b, c, d, e, f, t, rfl⟩ := list_length_ge_six hl
    rfl

/-- C2: for every card list, `validateHand` accepts or rejects exactly by
the count table of the specification: 0 cards invalid; 1 card always
valid; 2 cards a pair; 3 cards trips; 4 cards four of a kind or two
distinct pairs; 5 cards royal flush, straight flush, full house, flush or
straight; more than 5 cards invalid (`specValidate` transcribes the
table). -/
theorem validateHand_matches_spec_table (cards : List Card) :
    (validateHand cards).valid = specValidate cards := by
  rw [show validateHand cards = validateSorted (sortCards cards) from rfl,
    validateSorted_eq_spec (sortCards cards) (sortCards_sorted cards),
    specValidate_perm (sortCards_perm cards)]

theorem faceValue_eq_spec (r : Nat) : faceValue r = specFaceValue r := by
  unfold faceValue specFaceValue
  split_ifs <;> omega

theorem faceValueDamage_eq_sum (cards : List Card) :
    faceValueDamage cards = (cards.map fun c => specFaceValue c.rank).sum := by
  have key : ∀ (l : List Card) (n : Nat),
      l.foldl (fun t c => t + faceValue c.rank) n
        = n + (l.map fun c => specFaceValue c.rank).sum := by
    intro l
    induction l with
    | nil => intro n; simp
    | cons x w ih =>
      intro n
      rw [List.foldl_cons, ih, List.map_cons, List.sum_cons, faceValue_eq_spec]
      omega
  simpa using key cards 0

/-- C4: for every valid card set, the damage is the fixed category base
(per the ten-row table) plus the summed per-card face values, where rank 1
counts as 14 and every other rank counts as itself. -/
theorem damage_formula (cards : List Card) (hv : (validateHand cards).valid = true) :
    ((evaluateHand cards).damage
        = categoryBase (evaluateHand cards).type
          + (cards.map fun c => specFaceValue c.rank).sum)
      ∧ categoryBase "Royal Flush" = 50 ∧ categoryBase "Straight Flush" = 40
      ∧ categoryBase "Four of a Kind" = 35 ∧ categoryBase "Full House" = 30
      ∧ categoryBase "Flush" = 25 ∧ categoryBase "Straight" = 20
      ∧ categoryBase "Three of a Kind" = 15 ∧ categoryBase "Two Pair" = 10
      ∧ categoryBase "One Pair" = 5 ∧ categoryBase "High Card" = 1 := by
  refine ⟨?_, rfl, rfl, rfl, rfl, rfl, rfl, rfl, rfl, rfl, rfl⟩
  have hne : ¬ cards.length = 0 := by
    intro h0
    obtain rfl := List.length_eq_zero.1 h0
    simp [validateHand, sortCards, validateSorted, List.insertionSort] at hv
  rw [← faceValueDamage_eq_sum]
  simp [evaluateHand, hne, hv]

/-- C4 witness: the royal-flush example of the specification, scoring
50 + 14 + 10 + 11 + 12 + 13 = 110. -/
theorem damage_formula_witness :
    (validateHand royalHearts).valid = true
      ∧ ((evaluateHand royalHearts).damage
          = categoryBase (evaluateHand royalHearts).type
            + (royalHearts.map fun c => specFaceValue c.rank).sum)
      ∧ (evaluateHand royalHearts).type = "Royal Flush"
      ∧ (evaluateHand royalHearts).damage = 110 :=
  ⟨by decide, (damage_formula royalHearts (by decide)).1, by decide, by decide⟩

theorem straight_flags_sorted (l : List Card) (hs : List.Sorted byRank l)
    (h5 : l.length = 5) (hnd : (l.map (·.rank)).Nodup) :
    (isLowStraightSorted l = true ↔
        ((l.map (·.rank) : List Nat) : Multiset Nat)
          = (([1, 2, 3, 4, 5] : List Nat) : Multiset Nat))
    ∧ (isStraightSorted l = true ↔
        (¬ ((l.map (·.rank) : List Nat) : Multiset Nat)
            = (([1, 2, 3, 4, 5] : List Nat) : Multiset Nat))
          ∧ natListMax (l.map (·.rank)) - natListMin (l.map (·.rank)) = 4) := by
  obtain ⟨a, b, c, d, e, rfl⟩ := list_length_eq_five h5
  have h12 : a.rank ≤ b.rank := List.rel_of_pairwise_cons hs (by simp)
  have hs2 := (List.pairwise_cons.1 hs).2
  have h23 : b.rank ≤ c.rank := List.rel_of_pairwise_cons hs2 (by simp)
  have hs3 := (List.pairwise_cons.1 hs2).2
  have h34 : c.rank ≤ d.rank := List.rel_of_pairwise_cons hs3 (by simp)
  have hs4 := (List.pairwise_cons.1 hs3).2
  have h45 : d.rank ≤ e.rank := List.rel_of_pairwise_cons hs4 (by simp)
  have hsx : List.Sorted (· ≤ ·) [a.rank, b.rank, c.rank, d.rank, e.rank] :=
    sorted_five h12 h23 h34 h45
  have hwheeliff : ((([a.rank, b.rank, c.rank, d.rank, e.rank] : List Nat) : Multiset Nat)
      = (([1, 2, 3, 4, 5] : List Nat) : Multiset Nat)) ↔
      [a.rank, b.rank, c.rank, d.rank, e.rank] = [1, 2, 3, 4, 5] :=
    sorted_coe_eq_iff _ _ hsx (sorted_five (by omega) (by omega) (by omega) (by omega))
  have hmax : natListMax [a.rank, b.rank, c.rank, d.rank, e.rank] = e.rank := by
    have hb : ∀ x ∈ [a.rank, b.rank, c.rank, d.rank, e.rank], x ≤ e.rank := by
      intro x hx
      simp at hx
      rcases hx with rfl | rfl | rfl | rfl | rfl <;> omega
    exact Nat.le_antisymm (hb _ (natListMax_mem _ (by simp))) (le_natListMax _ _ (by simp))
  have hmin : natListMin [a.rank, b.rank, c.rank, d.rank, e.rank] = a.rank := by
    have hb : ∀ x ∈ [a.rank, b.rank, c.rank, d.rank, e.rank], a.rank ≤ x := by
      intro x hx
      simp at hx
      rcases hx with rfl | rfl | rfl | rfl | rfl <;> omega
    exact Nat.le_antisymm (natListMin_le _ _ (by simp)) (hb _ (natListMin_mem _ (by simp)))
  have hdv : (distinctVals [a.rank, b.rank, c.rank, d.rank, e.rank]).length = 5 := by
    have := (distinctVals_length_eq_iff [a.rank, b.rank, c.rank, d.rank, e.rank]).2
      (by simpa using hnd)
    simpa using this
  constructor
  · simp only [isLowStraightSorted, List.length_cons, List.length_nil, List.map_cons,
      List.map_nil, hdv, Bool.and_eq_true, beq_iff_eq, Nat.zero_add]
    simp only [List.map_cons, List.map_nil] at hwheeliff
    simp only [true_and]
    exact hwheeliff.symm
  · simp only [isStraightSorted, List.length_cons, List.length_nil, List.map_cons,
      List.map_nil, hdv, Bool.and_eq_true, beq_iff_eq, Bool.not_eq_true',
      beq_eq_false_iff_ne, ne_eq, List.getD_cons_zero, List.getD_cons_succ, Nat.zero_add]
    simp only [List.map_cons, List.map_nil] at hwheeliff
    rw [hmax, hmin]
    simp only [true_and]
    constructor
    · rintro ⟨hne, hsp⟩
      exact ⟨fun hcontra => hne (hwheeliff.1 hcontra), hsp⟩
    · rintro ⟨hne, hsp⟩
      exact ⟨fun hcontra => hne (hwheeliff.2 hcontra), hsp⟩

/-- C3: for every 5-card set with 5 distinct ranks, the wheel flag holds
exactly when the rank multiset is 1,2,3,4,5; the generic straight flag
holds exactly when the hand is not the wheel and max rank minus min rank
is 4; and the rank multiset 1,10,11,12,13 is neither kind of straight, is
valid exactly when the cards are a flush, and is then classified Royal
Flush — so a non-flush Ace,10,J,Q,K hand is an invalid 5-card play. -/
theorem straight_classification (cards : List Card) (h5 : cards.length = 5)
    (hnd : (cards.map (·.rank)).Nodup) :
    (isLowStraightSorted (sortCards cards) = specWheel cards)
    ∧ (isStraightSorted (sortCards cards) = true ↔
        specWheel cards = false
          ∧ natListMax (ranksOf cards) - natListMin (ranksOf cards) = 4)
    ∧ (specRoyalRanks cards = true →
        isStraightSorted (sortCards cards) = false
        ∧ isLowStraightSorted (sortCards cards) = false
        ∧ (validateHand cards).valid = specFlush cards
        ∧ (specFlush cards = true → (evaluateHand cards).type = "Royal Flush")) := by
  have hp := sortCards_perm cards
  have hs := sortCards_sorted cards
  have hl5 : (sortCards cards).length = 5 := by
    rw [hp.length_eq]
    exact h5
  have hndl : ((sortCards cards).map (·.rank)).Nodup := (hp.map (·.rank)).nodup_iff.2 hnd
  obtain ⟨hlow, hstr⟩ := straight_flags_sorted (sortCards cards) hs hl5 hndl
  have hcoe : (((sortCards cards).map (·.rank) : List Nat) : Multiset Nat)
      = ((ranksOf cards : List Nat) : Multiset Nat) := Multiset.coe_eq_coe.2 (hp.map _)
  have hmaxp : natListMax ((sortCards cards).map (·.rank)) = natListMax (ranksOf cards) :=
    natListMax_perm (hp.map _)
  have hminp : natListMin ((sortCards cards).map (·.rank)) = natListMin (ranksOf cards) :=
    natListMin_perm (hp.map _)
  have hlit : ({1, 2, 3, 4, 5} : Multiset Nat) = (([1, 2, 3, 4, 5] : List Nat) : Multiset Nat) :=
    rfl
  refine ⟨?_, ?_, ?_⟩
  · rw [Bool.eq_iff_iff, hlow, hcoe]
    unfold specWheel
    rw [hlit, decide_eq_true_eq]
  · rw [hstr, hcoe, hmaxp, hminp]
    unfold specWheel
    rw [hlit]
    constructor
    · rintro ⟨hne, hsp⟩
      exact ⟨by simpa using hne, hsp⟩
    · rintro ⟨hne, hsp⟩
      exact ⟨by simpa using hne, hsp⟩
  · intro hroy
    have hroyp : ((ranksOf cards : List Nat) : Multiset Nat)
        = (([1, 10, 11, 12, 13] : List Nat) : Multiset Nat) := by
      unfold specRoyalRanks at hroy
      rw [show ({1, 10, 11, 12, 13} : Multiset Nat)
        = (([1, 10, 11, 12, 13] : List Nat) : Multiset Nat) from rfl, decide_eq_true_eq] at hroy
      exact hroy
    have hsxm : List.Sorted (· ≤ ·) ((sortCards cards).map (·.rank)) :=
      List.Pairwise.map _ (fun u v huv => huv) hs
    have hsortedranks : (sortCards cards).map (·.rank) = [1, 10, 11, 12, 13] := by
      apply (sorted_coe_eq_iff _ _ hsxm
        (sorted_five (by omega) (by omega) (by omega) (by omega))).1
      rw [hcoe, hroyp]
    have hA : isLowStraightSorted (sortCards cards) = false := by
      rcases hB : isLowStraightSorted (sortCards cards)
      · rfl
      · have hx := hlow.1 hB
        rw [hcoe, hroyp] at hx
        exact absurd hx (by decide)
    have hSt : isStraightSorted (sortCards cards) = false := by
      rcases hB : isStraightSorted (sortCards cards)
      · rfl
      · obtain ⟨-, hsp⟩ := hstr.1 hB
        rw [hsortedranks] at hsp
        exact absurd hsp (by decide)
    have hmaxc : natListMax (ranksOf cards) = 13 := by
      rw [← hmaxp, hsortedranks]
      rfl
    have hminc : natListMin (ranksOf cards) = 1 := by
      rw [← hminp, hsortedranks]
      rfl
    have hval : (validateHand cards).valid = specValidate cards := by
      rw [show validateHand cards = validateSorted (sortCards cards) from rfl,
        validateSorted_eq_spec _ hs, specValidate_perm hp]
    have hsv5 : specValidate cards = (specRoyalFlush cards || specStraightFlush cards
        || specFullHouse cards || specFlush cards || specStraight cards) := by
      unfold specValidate
      rw [h5]
    have hwF : specWheel cards = false := by
      unfold specWheel
      rw [hlit, hroyp]
      decide
    have hstraightF : specStraight cards = false := by
      unfold specStraight
      rw [hwF, hmaxc, hminc]
      simp
    have hFHf : specFullHouse cards = false := by
      have hnone : ∀ r ∈ ranksOf cards, ¬ ((ranksOf cards).count r = 3) := by
        intro r hr hc3
        have hperm : (ranksOf cards).Perm [1, 10, 11, 12, 13] := Multiset.coe_eq_coe.1 hroyp
        rw [hperm.count_eq] at hc3
        have hn : ([1, 10, 11, 12, 13] : List Nat).Nodup := by decide
        have := List.nodup_iff_count_le_one.1 hn r
        omega
      unfold specFullHouse
      rcases hB : (ranksOf cards).any fun r => (ranksOf cards).count r == 3
      · simp
      · exfalso
        rcases List.any_eq_true.1 hB with ⟨r, hr, hc⟩
        exact hnone r hr (by simpa using hc)
    have hRF : specRoyalFlush cards = specFlush cards := by
      unfold specRoyalFlush
      rw [hroy]
      simp
    have hSF : specStraightFlush cards = false := by
      unfold specStraightFlush
      rw [hstraightF]
      simp
    refine ⟨hSt, hA, ?_, ?_⟩
    · rw [hval, hsv5, hRF, hSF, hFHf, hstraightF]
      simp
    · intro hfl
      have hvalid : (validateHand cards).valid = true := by
        rw [hval, hsv5, hRF, hSF, hFHf, hstraightF, hfl]
        simp
      have hne : ¬ cards.length = 0 := by omega
      have hflS : isFlushSorted (sortCards cards) = true := by
        rw [isFlushSorted_eq_specFlush, specFlush_perm hp]
        exact hfl
      have hdvS : (distinctVals ((sortCards cards).map (·.rank))).length = 5 := by
        have hx := (distinctVals_length_eq_iff ((sortCards cards).map (·.rank))).2 hndl
        rw [List.length_map, hl5] at hx
        exact hx
      have hroyflag : isRoyalSorted (sortCards cards) = true := by
        unfold isRoyalSorted
        simp only [hl5, hdvS, hflS, hsortedranks, beq_self_eq_true, Bool.and_true,
          Bool.true_and, Bool.and_eq_true, beq_iff_eq]
        decide
      simp [evaluateHand, hne, hvalid, handTypeSorted, hroyflag]

/-- C3 witness: the non-flush royal pattern (club ace, four hearts) is
rejected as a 5-card play, while the all-hearts royal pattern is accepted
and classified Royal Flush. -/
theorem straight_classification_witness :
    nonFlushRoyal.length = 5 ∧ (nonFlushRoyal.map (·.rank)).Nodup
      ∧ specRoyalRanks nonFlushRoyal = true ∧ specFlush nonFlushRoyal = false
      ∧ (validateHand nonFlushRoyal).valid = specFlush nonFlushRoyal
      ∧ (validateHand nonFlushRoyal).valid = false
      ∧ (validateHand royalHearts).valid = true
      ∧ (evaluateHand royalHearts).type = "Royal Flush" :=
  ⟨by decide, by decide, by decide, by decide,
    ((straight_classification nonFlushRoyal (by decide) (by decide)).2.2 (by decide)).2.2.1,
    by decide, by decide, by decide⟩

/-- C10: `makePrediction` is guarded only by room existence, Tactical mode
and not being the current player. A named session outside the room gives
`findIndex = -1`, passes the current-player check, and the handler then
writes through `room.players[-1]` (a TypeError, modelled as `crash`); and
in every Tactical room a non-current member's prediction is recorded with
no `gameState` check at all. -/
theorem makePrediction_unguarded :
    (makePrediction (some demoTacticalRoom) true 3 "One Pair"
        = .crash (some demoTacticalRoom))
    ∧ (∀ (room : Room) (i actorId : Nat) (pred : String) (pl : Player),
        room.gameMode = "tactical" →
        room.players.findIdx? (fun p => p.id == actorId) = some i →
        i ≠ room.currentPlayer →
        room.players.get? i = some pl →
        makePrediction (some room) true actorId pred
          = .ok (some { room with
              players := room.players.set i { pl with prediction := some pred } })
              [.predictionMadeEv i pred]) := by
  constructor
  · decide
  · intro room i actorId pred pl hmode hfind hne hget
    rw [List.get?_eq_getElem?] at hget
    simp [makePrediction, hmode, hfind, hne, hget]

/-- C10 witness: in the demo Tactical room, whose `gameState` is still
`waiting`, the non-current member records a prediction. -/
theorem makePrediction_unguarded_witness :
    demoTacticalRoom.gameState = "waiting"
      ∧ makePrediction (some demoTacticalRoom) true 2 "Flush"
          = .ok (some { demoTacticalRoom with
              players := demoTacticalRoom.players.set 1
                { demoP2 with prediction := some "Flush" } })
              [.predictionMadeEv 1 "Flush"] :=
  ⟨rfl, makePrediction_unguarded.2 demoTacticalRoom 1 2 "Flush" demoP2 rfl (by decide)
    (by decide) (by decide)⟩

/-- C7 counterexample: an out-of-turn `buildArmor` in a playing Tactical
room is not a silent no-op — it emits an `error` event to the actor, so
"no event of any kind is emitted" fails for this authorization
violation. -/
theorem silent_noop_counterexample :
    buildArmor (some demoTacticalPlaying) true 2 cz
        = .ok (some demoTacticalPlaying) [.errorEv "You can only build armor on your turn"]
      ∧ stepEvents (buildArmor (some demoTacticalPlaying) true 2 cz) ≠ [] := by
  constructor
  · decide
  · decide

/-- C7 amended: the listed violations (not your turn, room not playing,
card not found) are silent no-ops — no state change, no event — for
`selectCard`, `markForDiscard`, `discardCards` and `playHand`; for
`buildArmor`, missing-mode/state violations are silent but an out-of-turn
attempt emits a single `error` event to the actor with no state change;
`makePrediction` has no `gameState` guard at all, is silent for a
non-Tactical room, and a current-player attempt emits a single `error`
event with no state change. -/
theorem noop_policy_amended :
    (∀ (room : Room) (known : Bool) (actorId cardId : Nat),
        room.gameState ≠ "playing" →
        selectCard (some room) known actorId cardId = .ok (some room) []
          ∧ markForDiscard (some room) known actorId cardId = .ok (some room) []
          ∧ discardCards (some room) known actorId = .ok (some room) []
          ∧ ∀ choose, playHand (some room) known actorId choose = .ok (some room) [])
    ∧ (∀ (room : Room) (actorId cardId i : Nat),
        room.gameState = "playing" →
        room.players.findIdx? (fun p => p.id == actorId) = some i →
        i ≠ room.currentPlayer →
        selectCard (some room) true actorId cardId = .ok (some room) []
          ∧ markForDiscard (some room) true actorId cardId = .ok (some room) []
          ∧ discardCards (some room) true actorId = .ok (some room) []
          ∧ ∀ choose, playHand (some room) true actorId choose = .ok (some room) [])
    ∧ (∀ (room : Room) (actorId cardId : Nat) (cur : Player),
        room.gameState = "playing" →
        room.players.findIdx? (fun p => p.id == actorId) = some room.currentPlayer →
        room.players.get? room.currentPlayer = some cur →
        toggleSelect cardId cur.hand = none →
        toggleMark cardId cur.hand = none →
        selectCard (some room) true actorId cardId = .ok (some room) []
          ∧ markForDiscard (some room) true actorId cardId = .ok (some room) [])
    ∧ (∀ (room : Room) (known : Bool) (actorId : Nat) (choose : Nat → Nat),
        (room.gameMode ≠ "tactical" ∨ room.gameState ≠ "playing" →
          buildArmor (some room) known actorId choose = .ok (some room) [])
        ∧ (room.gameMode = "tactical" → room.gameState = "playing" →
            room.players.findIdx? (fun p => p.id == actorId) ≠ some room.currentPlayer →
            buildArmor (some room) true actorId choose
              = .ok (some room) [.errorEv "You can only build armor on your turn"]))
    ∧ (∀ (room : Room) (actorId : Nat) (pred : String),
        (room.gameMode ≠ "tactical" →
          makePrediction (some room) true actorId pred = .ok (some room) [])
        ∧ (room.gameMode = "tactical" →
          room.players.findIdx? (fun p => p.id == actorId) = some room.currentPlayer →
          makePrediction (some room) true actorId pred
            = .ok (some room) [.errorEv "You cannot predict your own hand"])) := by
  refine ⟨?_, ?_, ?_, ?_, ?_⟩
  · intro room known actorId cardId h
    exact ⟨by simp [selectCard, h], by simp [markForDiscard, h],
      by simp [discardCards, h], fun choose => by simp [playHand, h]⟩
  · intro room actorId cardId i hstate hfind hne
    exact ⟨by simp [selectCard, hstate, hfind, hne],
      by simp [markForDiscard, hstate, hfind, hne],
      by simp [discardCards, hstate, hfind, hne],
      fun choose => by simp [playHand, hstate, hfind, hne]⟩
  · intro room actorId cardId cur hstate hfind hget htogs htogm
    rw [List.get?_eq_getElem?] at hget
    exact ⟨by simp [selectCard, hstate, hfind, hget, htogs],
      by simp [markForDiscard, hstate, hfind, hget, htogm]⟩
  · intro room known actorId choose
    constructor
    · rintro (h | h)
      · simp [buildArmor, h]
      · simp [buildArmor, h]
    · intro hmode hstate hne
      simp [buildArmor, hmode, hstate, hne]
  · intro room actorId pred
    constructor
    · intro h
      simp [makePrediction, h]
    · intro hmode hfind
      simp [makePrediction, hmode, hfind]

/-- C7 witness: in the demo Tactical room, still in the `waiting` state,
every in-game action is a silent no-op. -/
theorem noop_policy_amended_witness :
    demoTacticalRoom.gameState ≠ "playing"
      ∧ selectCard (some demoTacticalRoom) true 1 5 = .ok (some demoTacticalRoom) []
      ∧ markForDiscard (some demoTacticalRoom) true 1 5 = .ok (some demoTacticalRoom) []
      ∧ discardCards (some demoTacticalRoom) true 1 = .ok (some demoTacticalRoom) []
      ∧ playHand (some demoTacticalRoom) true 1 cz = .ok (some demoTacticalRoom) [] := by
  have h := noop_policy_amended.1 demoTacticalRoom true 1 5 (by decide)
  exact ⟨by decide, h.1, h.2.1, h.2.2.1, h.2.2.2 cz⟩

theorem playHand_success (room : Room) (actorId : Nat) (choose : Nat → Nat)
    (cur enemy : Player)
    (hstate : room.gameState = "playing")
    (hfind : room.players.findIdx? (fun p => p.id == actorId) = some room.currentPlayer)
    (hi : room.currentPlayer ≤ 1)
    (hcur : room.players.get? room.currentPlayer = some cur)
    (hene : room.players.get? (1 - room.currentPlayer) = some enemy)
    (hsel : cur.selectedCards.length ≠ 0)
    (hval : (validateHand cur.selectedCards).valid = true) :
    playHand (some room) true actorId choose
      = playHandCore room room.currentPlayer cur enemy choose := by
  rw [List.get?_eq_getElem?] at hcur hene
  simp [playHand, hstate, hfind, hi, hcur, hene, hsel, hval]

theorem buildArmor_success (room : Room) (actorId : Nat) (choose : Nat → Nat)
    (cur : Player)
    (hmode : room.gameMode = "tactical")
    (hstate : room.gameState = "playing")
    (hfind : room.players.findIdx? (fun p => p.id == actorId) = some room.currentPlayer)
    (hcur : room.players.get? room.currentPlayer = some cur)
    (hsel : cur.selectedCards.length ≠ 0)
    (hval : (validateHand cur.selectedCards).valid = true) :
    buildArmor (some room) true actorId choose = buildArmorCore room cur choose := by
  rw [List.get?_eq_getElem?] at hcur
  simp [buildArmor, hmode, hstate, hfind, hcur, hsel, hval]

/-- C5: Tactical play-hand damage resolution. For every valid play by the
current player: starting from the classified damage, a pending (truthy)
opponent prediction multiplies the damage by 0.25 when it names the actual
category and by 1.25 otherwise (floored), and the prediction is cleared;
then min(armor, damage) is absorbed by armor; the remainder is subtracted
from the opponent's health, floored at 0 (Nat subtraction). -/
theorem tactical_damage_resolution (room : Room) (actorId : Nat) (choose : Nat → Nat)
    (cur enemy : Player)
    (hmode : room.gameMode = "tactical")
    (hstate : room.gameState = "playing")
    (hfind : room.players.findIdx? (fun p => p.id == actorId) = some room.currentPlayer)
    (hi : room.currentPlayer ≤ 1)
    (hcur : room.players.get? room.currentPlayer = some cur)
    (hene : room.players.get? (1 - room.currentPlayer) = some enemy)
    (hsel : cur.selectedCards.length ≠ 0)
    (hval : (validateHand cur.selectedCards).valid = true)
    (d1 : Nat) (pred1 : Option String)
    (hd1 : d1 = (match enemy.prediction with
      | some p => if p ≠ "" then
          (if p = (evaluateHand cur.selectedCards).type
            then (evaluateHand cur.selectedCards).damage / 4
            else (evaluateHand cur.selectedCards).damage * 5 / 4)
          else (evaluateHand cur.selectedCards).damage
      | none => (evaluateHand cur.selectedCards).damage))
    (hpred1 : pred1 = (match enemy.prediction with
      | some p => if p ≠ "" then none else some p
      | none => none)) :
    (stepRoom (playHand (some room) true actorId choose)).bind
        (fun r => r.players.get? (1 - room.currentPlayer))
      = some (if enemy.health - (d1 - min enemy.armor d1) = 0 then
          { enemy with
            prediction := pred1,
            armor := enemy.armor - min enemy.armor d1,
            health := enemy.health - (d1 - min enemy.armor d1) }
        else
          { enemy with
            prediction := pred1,
            armor := enemy.armor - min enemy.armor d1,
            health := enemy.health - (d1 - min enemy.armor d1),
            discardsUsed := 0 }) := by
  have hlen2 : 1 - room.currentPlayer < room.players.length := by
    rw [List.get?_eq_getElem?] at hene
    exact (List.getElem?_eq_some_iff.1 hene).1
  rw [playHand_success room actorId choose cur enemy hstate hfind hi hcur hene hsel hval]
  subst hd1
  subst hpred1
  unfold playHandCore
  rcases hpred : enemy.prediction with _ | p
  · by_cases harm : enemy.armor > 0
    · simp only [hmode, hpred, if_pos rfl, if_pos (And.intro rfl harm)]
      by_cases hh : enemy.health
          - ((evaluateHand cur.selectedCards).damage
            - min enemy.armor (evaluateHand cur.selectedCards).damage) = 0 <;>
        simp [hh, harm, stepRoom, Option.bind, List.get?_eq_getElem?, List.getElem?_set_self,
          List.length_set, hlen2]
    · have harm0 : enemy.armor = 0 := by omega
      simp only [hmode, hpred, if_pos rfl, harm0]
      by_cases hh : enemy.health - (evaluateHand cur.selectedCards).damage = 0 <;>
        simp [hh, harm, stepRoom, Option.bind, List.get?_eq_getElem?, List.getElem?_set_self,
          List.length_set, hlen2]
  · by_cases hp : p = ""
    · subst hp
      by_cases harm : enemy.armor > 0
      · simp only [hmode, hpred, if_pos rfl, ne_eq, not_true_eq_false, if_false,
          if_pos (And.intro rfl harm)]
        by_cases hh : enemy.health
            - ((evaluateHand cur.selectedCards).damage
              - min enemy.armor (evaluateHand cur.selectedCards).damage) = 0 <;>
          simp [hh, harm, stepRoom, Option.bind, List.get?_eq_getElem?, List.getElem?_set_self,
            List.length_set, hlen2]
      · have harm0 : enemy.armor = 0 := by omega
        simp only [hmode, hpred, if_pos rfl, ne_eq, not_true_eq_false, if_false, harm0]
        by_cases hh : enemy.health - (evaluateHand cur.selectedCards).damage = 0 <;>
          simp [hh, harm, stepRoom, Option.bind, List.get?_eq_getElem?, List.getElem?_set_self,
            List.length_set, hlen2]
    · by_cases hmatch : p = (evaluateHand cur.selectedCards).type
      · by_cases harm : enemy.armor > 0
        · simp only [hmode, hpred, if_pos rfl, ne_eq, hp, not_false_eq_true, if_true,
            if_pos hmatch, if_pos (And.intro rfl harm)]
          by_cases hh : enemy.health
              - ((evaluateHand cur.selectedCards).damage / 4
                - min enemy.armor ((evaluateHand cur.selectedCards).damage / 4)) = 0 <;>
            simp [hh, harm, stepRoom, Option.bind, List.get?_eq_getElem?, List.getElem?_set_self,
              List.length_set, hlen2]
        · have harm0 : enemy.armor = 0 := by omega
          simp only [hmode, hpred, if_pos rfl, ne_eq, hp, not_false_eq_true, if_true,
            if_pos hmatch, harm0]
          by_cases hh : enemy.health - (evaluateHand cur.selectedCards).damage / 4 = 0 <;>
            simp [hh, harm, stepRoom, Option.bind, List.get?_eq_getElem?, List.getElem?_set_self,
              List.length_set, hlen2]
      · by_cases harm : enemy.armor > 0
        · simp only [hmode, hpred, if_pos rfl, ne_eq, hp, not_false_eq_true, if_true,
            if_neg hmatch, if_pos (And.intro rfl harm)]
          by_cases hh : enemy.health
              - ((evaluateHand cur.selectedCards).damage * 5 / 4
                - min enemy.armor ((evaluateHand cur.selectedCards).damage * 5 / 4)) = 0 <;>
            simp [hh, harm, stepRoom, Option.bind, List.get?_eq_getElem?, List.getElem?_set_self,
              List.length_set, hlen2]
        · have harm0 : enemy.armor = 0 := by omega
          simp only [hmode, hpred, if_pos rfl, ne_eq, hp, not_false_eq_true, if_true,
            if_neg hmatch, harm0]
          by_cases hh : enemy.health - (evaluateHand cur.selectedCards).damage * 5 / 4 = 0 <;>
            simp [hh, harm, stepRoom, Option.bind, List.get?_eq_getElem?, List.getElem?_set_self,
              List.length_set, hlen2]

/-- C5 witness: the specification example — opponent armor 10, incoming
damage 15 (a pair of fives), no pending prediction — leaves armor 0 and
health reduced by 5 to 95. -/
theorem tactical_damage_resolution_witness :
    (validateHand demoC5Cur.selectedCards).valid = true
      ∧ demoC5Enemy.armor = 10
      ∧ (evaluateHand demoC5Cur.selectedCards).damage = 15
      ∧ (stepRoom (playHand (some demoC5Room) true 1 cz)).bind
          (fun r => r.players.get? (1 - demoC5Room.currentPlayer))
        = some { demoC5Enemy with
            prediction := none, armor := 0, health := 95, discardsUsed := 0 } := by
  refine ⟨by decide, by decide, by decide, ?_⟩
  have h := tactical_damage_resolution demoC5Room 1 cz demoC5Cur demoC5Enemy rfl rfl
    (by decide) (by decide) (by decide) (by decide) (by decide) (by decide)
    15 none (by decide) (by decide)
  rw [h]
  decide

/-- C6 counterexample: a successfully resolved lethal play-hand (pair
room below: single rank-2 card, damage 3, opponent health 3) ends the
game without flipping `currentPlayer` and without incrementing `turn`,
so "currentPlayerIndex flips and turn increases on every successfully
resolved play-hand" fails, as does "turn strictly increases on every
turn-ending action". -/
theorem turn_flip_counterexample :
    (stepRoom (playHand (some demoLethalRoom) true 1 cz)).map (·.currentPlayer)
        = some demoLethalRoom.currentPlayer
      ∧ (stepRoom (playHand (some demoLethalRoom) true 1 cz)).map (·.turn)
        = some demoLethalRoom.turn
      ∧ (stepRoom (playHand (some demoLethalRoom) true 1 cz)).map (·.gameState)
        = some "ended"
      ∧ stepEvents (playHand (some demoLethalRoom) true 1 cz) = [.gameEndedEv 1] := by
  exact ⟨by decide, by decide, by decide, by decide⟩

/-- C6 amended: every successfully resolved play-hand either eliminates
the opponent — the game ends with `currentPlayer` and `turn` unchanged —
or flips `currentPlayer` and increments `turn` by exactly 1; every
successfully resolved build-armor flips and increments; and neither
`currentPlayer` nor `turn` ever changes on a selection toggle, a
discard-mark toggle, or a discard. -/
theorem turn_alternation_amended :
    (∀ (room : Room) (actorId : Nat) (choose : Nat → Nat) (cur enemy : Player),
        room.gameState = "playing" →
        room.players.findIdx? (fun p => p.id == actorId) = some room.currentPlayer →
        room.currentPlayer ≤ 1 →
        room.players.get? room.currentPlayer = some cur →
        room.players.get? (1 - room.currentPlayer) = some enemy →
        cur.selectedCards.length ≠ 0 →
        (validateHand cur.selectedCards).valid = true →
        ∃ r' evts, playHand (some room) true actorId choose = .ok (some r') evts
          ∧ ((r'.gameState = "ended" ∧ r'.currentPlayer = room.currentPlayer
                ∧ r'.turn = room.turn)
            ∨ (r'.gameState = room.gameState ∧ r'.currentPlayer = 1 - room.currentPlayer
                ∧ r'.turn = room.turn + 1)))
    ∧ (∀ (room : Room) (actorId : Nat) (choose : Nat → Nat) (cur enemy : Player),
        room.gameMode = "tactical" →
        room.gameState = "playing" →
        room.players.findIdx? (fun p => p.id == actorId) = some room.currentPlayer →
        room.currentPlayer ≤ 1 →
        room.players.get? room.currentPlayer = some cur →
        room.players.get? (1 - room.currentPlayer) = some enemy →
        cur.selectedCards.length ≠ 0 →
        (validateHand cur.selectedCards).valid = true →
        ∃ r' evts, buildArmor (some room) true actorId choose = .ok (some r') evts
          ∧ r'.gameState = room.gameState ∧ r'.currentPlayer = 1 - room.currentPlayer
          ∧ r'.turn = room.turn + 1)
    ∧ (∀ (room : Room) (known : Bool) (actorId cardId : Nat) (r' : Room),
        stepRoom (selectCard (some room) known actorId cardId) = some r' →
        r'.currentPlayer = room.currentPlayer ∧ r'.turn = room.turn)
    ∧ (∀ (room : Room) (known : Bool) (actorId cardId : Nat) (r' : Room),
        stepRoom (markForDiscard (some room) known actorId cardId) = some r' →
        r'.currentPlayer = room.currentPlayer ∧ r'.turn = room.turn)
    ∧ (∀ (room : Room) (known : Bool) (actorId : Nat) (r' : Room),
        stepRoom (discardCards (some room) known actorId) = some r' →
        r'.currentPlayer = room.currentPlayer ∧ r'.turn = room.turn) := by
  refine ⟨?_, ?_, ?_, ?_, ?_⟩
  · intro room actorId choose cur enemy hstate hfind hi hcur hene hsel hval
    rw [playHand_success room actorId choose cur enemy hstate hfind hi hcur hene hsel hval]
    unfold playHandCore
    dsimp only
    repeat' split
    all_goals
      first
      | exact ⟨_, _, rfl, Or.inl ⟨rfl, rfl, rfl⟩⟩
      | exact ⟨_, _, rfl, Or.inr ⟨rfl, rfl, rfl⟩⟩
  · intro room actorId choose cur enemy hmode hstate hfind hi hcur hene hsel hval
    rw [buildArmor_success room actorId choose cur hmode hstate hfind hcur hsel hval]
    unfold buildArmorCore
    dsimp only
    rw [if_pos hi, hene]
    exact ⟨_, _, rfl, rfl, rfl, rfl⟩
  · intro room known actorId cardId r' h
    unfold selectCard at h
    dsimp only at h
    by_cases hg : (¬ known = true ∨ ¬ room.gameState = "playing")
    · rw [if_pos hg] at h
      dsimp only [stepRoom] at h
      rw [Option.some.injEq] at h
      subst h
      exact ⟨rfl, rfl⟩
    · rw [if_neg hg] at h
      rcases hf : List.findIdx? (fun p => p.id == actorId) room.players with _ | i
      · rw [hf] at h
        dsimp only [stepRoom] at h
        rw [Option.some.injEq] at h
        subst h
        exact ⟨rfl, rfl⟩
      · rw [hf] at h
        dsimp only at h
        by_cases hi : i ≠ room.currentPlayer
        · rw [if_pos hi] at h
          dsimp only [stepRoom] at h
          rw [Option.some.injEq] at h
          subst h
          exact ⟨rfl, rfl⟩
        · rw [if_neg hi] at h
          rcases hgp : room.players.get? i with _ | cur
          · rw [hgp] at h
            dsimp only [stepRoom] at h
            rw [Option.some.injEq] at h
            subst h
            exact ⟨rfl, rfl⟩
          · rw [hgp] at h
            dsimp only at h
            rcases ht : toggleSelect cardId cur.hand with _ | ⟨hand2, sel⟩
            · rw [ht] at h
              dsimp only [stepRoom] at h
              rw [Option.some.injEq] at h
              subst h
              exact ⟨rfl, rfl⟩
            · rw [ht] at h
              dsimp only [stepRoom] at h
              rw [Option.some.injEq] at h
              subst h
              exact ⟨rfl, rfl⟩
  · intro room known actorId cardId r' h
    unfold markForDiscard at h
    dsimp only at h
    by_cases hg : (¬ known = true ∨ ¬ room.gameState = "playing")
    · rw [if_pos hg] at h
      dsimp only [stepRoom] at h
      rw [Option.some.injEq] at h
      subst h
      exact ⟨rfl, rfl⟩
    · rw [if_neg hg] at h
      rcases hf : List.findIdx? (fun p => p.id == actorId) room.players with _ | i
      · rw [hf] at h
        dsimp only [stepRoom] at h
        rw [Option.some.injEq] at h
        subst h
        exact ⟨rfl, rfl⟩
      · rw [hf] at h
        dsimp only at h
        by_cases hi : i ≠ room.currentPlayer
        · rw [if_pos hi] at h
          dsimp only [stepRoom] at h
          rw [Option.some.injEq] at h
          subst h
          exact ⟨rfl, rfl⟩
        · rw [if_neg hi] at h
          rcases hgp : room.players.get? i with _ | cur
          · rw [hgp] at h
            dsimp only [stepRoom] at h
            rw [Option.some.injEq] at h
            subst h
            exact ⟨rfl, rfl⟩
          · rw [hgp] at h
            dsimp only at h
            rcases ht : toggleMark cardId cur.hand with _ | ⟨hand2, sel⟩
            · rw [ht] at h
              dsimp only [stepRoom] at h
              rw [Option.some.injEq] at h
              subst h
              exact ⟨rfl, rfl⟩
            · rw [ht] at h
              dsimp only [stepRoom] at h
              rw [Option.some.injEq] at h
              subst h
              exact ⟨rfl, rfl⟩
  · intro room known actorId r' h
    unfold discardCards at h
    dsimp only at h
    by_cases hg : (¬ known = true ∨ ¬ room.gameState = "playing")
    · rw [if_pos hg] at h
      dsimp only [stepRoom] at h
      rw [Option.some.injEq] at h
      subst h
      exact ⟨rfl, rfl⟩
    · rw [if_neg hg] at h
      rcases hf : List.findIdx? (fun p => p.id == actorId) room.players with _ | i
      · rw [hf] at h
        dsimp only [stepRoom] at h
        rw [Option.some.injEq] at h
        subst h
        exact ⟨rfl, rfl⟩
      · rw [hf] at h
        dsimp only at h
        by_cases hi : i ≠ room.currentPlayer
        · rw [if_pos hi] at h
          dsimp only [stepRoom] at h
          rw [Option.some.injEq] at h
          subst h
          exact ⟨rfl, rfl⟩
        · rw [if_neg hi] at h
          rcases hgp : room.players.get? i with _ | cur
          · rw [hgp] at h
            dsimp only [stepRoom] at h
            rw [Option.some.injEq] at h
            subst h
            exact ⟨rfl, rfl⟩
          · rw [hgp] at h
            dsimp only at h
            by_cases hlim : ((cur.hand.filter (·.markedForDiscard)).length = 0
                ∨ (cur.hand.filter (·.markedForDiscard)).length > cur.maxCardsPerDiscard
                ∨ cur.discardsUsed ≥ cur.maxDiscards)
            · rw [if_pos hlim] at h
              dsimp only [stepRoom] at h
              rw [Option.some.injEq] at h
              subst h
              exact ⟨rfl, rfl⟩
            · rw [if_neg hlim] at h
              dsimp only [stepRoom] at h
              rw [Option.some.injEq] at h
              subst h
              exact ⟨rfl, rfl⟩

/-- C6 witness: the amended alternation theorem applied to the concrete
lethal room (its play-hand conjunct), with every hypothesis discharged by
evaluation. -/
theorem turn_alternation_amended_witness :
    ∃ r' evts, playHand (some demoLethalRoom) true 1 cz = .ok (some r') evts
      ∧ ((r'.gameState = "ended" ∧ r'.currentPlayer = demoLethalRoom.currentPlayer
            ∧ r'.turn = demoLethalRoom.turn)
        ∨ (r'.gameState = demoLethalRoom.gameState
            ∧ r'.currentPlayer = 1 - demoLethalRoom.currentPlayer
            ∧ r'.turn = demoLethalRoom.turn + 1)) :=
  turn_alternation_amended.1 demoLethalRoom 1 cz demoAttacker demoVictim
    (by decide) (by decide) (by decide) (by decide) (by decide) (by decide) (by decide)

/-- C8: on the same one-player room, `startGame` refuses to act (its
`players.length !== 2` guard holds: no reset, no event), yet
`acceptRematch` performs the full game reset - fresh 8-card hand dealt,
`gameState` set to "playing", `turn` 1, a random first player picked, a
36-card deck left - because the rematch path has no player-count guard. -/
theorem acceptRematch_single_player_resets :
    demoSoloRoom.players.length = 1
      ∧ startGame (some demoSoloRoom) cz 0 = .ok (some demoSoloRoom) []
      ∧ (stepRoom (acceptRematch (some demoSoloRoom) true cz 0)).map (·.gameState)
          = some "playing"
      ∧ (stepRoom (acceptRematch (some demoSoloRoom) true cz 0)).map (·.turn) = some 1
      ∧ (stepRoom (acceptRematch (some demoSoloRoom) true cz 0)).map (·.currentPlayer)
          = some 0
      ∧ (stepRoom (acceptRematch (some demoSoloRoom) true cz 0)).map (fun r => r.deck.length)
          = some 36
      ∧ (stepRoom (acceptRematch (some demoSoloRoom) true cz 0)).map
            (fun r => (r.players.headD default).hand.length)
          = some 8
      ∧ stepEvents (acceptRematch (some demoSoloRoom) true cz 0) = [.rematchAcceptedEv] := by
  decide

theorem get_of_set_pair (l : List Player) (i : Nat) (a b : Player)
    (hi : i ≤ 1) (hlen : i < l.length) :
    ((l.set i a).set (1 - i) b).get? i = some a := by
  have hne : 1 - i ≠ i := by omega
  rw [List.get?_eq_getElem?, List.getElem?_set_ne hne, List.getElem?_set_self]
  simp [hlen]

/-- C9: in Recycling mode, on every successfully resolved play-hand whose
draw pile holds fewer than 8 cards while the discard pile (with the played
cards, flags cleared, already pushed onto it) is non-empty, the discard
pile is Fisher-Yates shuffled with the same algorithm as the initial deck
shuffle, appended to the bottom of the draw pile and emptied, and only
then are the 8 replacement cards drawn off the top; and `buildArmor`, the
other turn-ending handler sharing this card flow, can never reach it in
Recycling mode because its guard requires Tactical mode (it returns the
room untouched with no events). -/
theorem recycling_reshuffle :
    (∀ (room : Room) (actorId : Nat) (choose : Nat → Nat) (cur enemy : Player),
        room.gameMode = "recycling" →
        room.gameState = "playing" →
        room.players.findIdx? (fun p => p.id == actorId) = some room.currentPlayer →
        room.currentPlayer ≤ 1 →
        room.players.get? room.currentPlayer = some cur →
        room.players.get? (1 - room.currentPlayer) = some enemy →
        cur.selectedCards.length ≠ 0 →
        (validateHand cur.selectedCards).valid = true →
        room.deck.length < 8 →
        (room.discardPile ++ (cur.hand.filter (·.selected)).map cleanFlags).length > 0 →
        ∃ r' evts, playHand (some room) true actorId choose = .ok (some r') evts
          ∧ r'.deck = (room.deck ++ fisherYates choose
              (room.discardPile ++ (cur.hand.filter (·.selected)).map cleanFlags)).drop 8
          ∧ r'.discardPile = []
          ∧ (r'.players.get? room.currentPlayer).map (·.hand)
              = some (((room.deck ++ fisherYates choose
                  (room.discardPile ++ (cur.hand.filter (·.selected)).map cleanFlags)).take
                    8).map cleanFlags))
    ∧ (∀ (room : Room) (known : Bool) (actorId : Nat) (choose : Nat → Nat),
        room.gameMode = "recycling" →
        buildArmor (some room) known actorId choose = .ok (some room) []) := by
  constructor
  · intro room actorId choose cur enemy hmode hstate hfind hi hcur hene hsel hval hlow hne
    have hlen : room.currentPlayer < room.players.length := by
      by_contra hge
      rw [List.get?_eq_getElem?, List.getElem?_eq_none (by omega)] at hcur
      exact Option.noConfusion hcur
    rw [playHand_success room actorId choose cur enemy hstate hfind hi hcur hene hsel hval]
    unfold playHandCore resolveCardFlow
    dsimp only
    rw [hmode]
    rw [if_neg (show ¬ ("recycling" = "tactical") by decide)]
    rw [if_neg (show ¬ ("recycling" = "tactical" ∧ enemy.armor > 0) from fun h =>
      absurd h.1 (by decide))]
    rw [if_pos (show "recycling" = "recycling" from rfl)]
    rw [if_pos (show room.deck.length < 8
      ∧ (room.discardPile ++ (cur.hand.filter (·.selected)).map cleanFlags).length > 0
      from ⟨hlow, hne⟩)]
    dsimp only
    split
    · exact ⟨_, _, rfl, rfl, rfl, by rw [get_of_set_pair _ _ _ _ hi hlen]; rfl⟩
    · exact ⟨_, _, rfl, rfl, rfl, by rw [get_of_set_pair _ _ _ _ hi hlen]; rfl⟩
  · intro room known actorId choose hmode
    unfold buildArmor
    dsimp only
    rw [if_pos (Or.inr (Or.inl (show room.gameMode ≠ "tactical" by rw [hmode]; decide)))]

/-- C9 witness: the reshuffle theorem applied to the concrete Recycling
room with a one-card draw pile and a one-card discard pile. -/
theorem recycling_reshuffle_witness :
    ∃ r' evts, playHand (some demoRecRoom) true 1 cz = .ok (some r') evts
      ∧ r'.deck = (demoRecRoom.deck ++ fisherYates cz
          (demoRecRoom.discardPile
            ++ (demoRecCur.hand.filter (·.selected)).map cleanFlags)).drop 8
      ∧ r'.discardPile = []
      ∧ (r'.players.get? demoRecRoom.currentPlayer).map (·.hand)
          = some (((demoRecRoom.deck ++ fisherYates cz
              (demoRecRoom.discardPile
                ++ (demoRecCur.hand.filter (·.selected)).map cleanFlags)).take
                8).map cleanFlags) :=
  recycling_reshuffle.1 demoRecRoom 1 cz demoRecCur demoRecEnemy (by decide) (by decide)
    (by decide) (by decide) (by decide) (by decide) (by decide) (by decide) (by decide)
    (by decide)

theorem idsOf_append (a b : List Card) : idsOf (a ++ b) = idsOf a + idsOf b := by
  simp [idsOf, Multiset.coe_add]

theorem idsOf_cleanFlags (l : List Card) : idsOf (l.map cleanFlags) = idsOf l := by
  rw [idsOf, List.map_map]
  rfl

theorem idsOf_take_drop (l : List Card) (n : Nat) :
    idsOf (l.take n) + idsOf (l.drop n) = idsOf l := by
  rw [← idsOf_append, List.take_append_drop]

theorem idsOf_filter_le (p : Card → Bool) (l : List Card) :
    idsOf (l.filter p) ≤ idsOf l := by
  rw [idsOf, idsOf, Multiset.coe_le]
  exact ((List.filter_sublist l).map _).subperm

theorem idsOf_perm {l1 l2 : List Card} (h : l1.Perm l2) : idsOf l1 = idsOf l2 := by
  rw [idsOf, idsOf, Multiset.coe_eq_coe]
  exact h.map _

theorem idsOf_filter_partition (p : Card → Bool) (l : List Card) :
    idsOf (l.filter p) + idsOf (l.filter fun c => !(p c)) = idsOf l := by
  rw [← idsOf_append]
  refine idsOf_perm ?_
  induction l with
  | nil => exact List.Perm.refl _
  | cons c t ih =>
    cases hc : p c
    · rw [List.filter_cons_of_neg (by simp [hc]), List.filter_cons_of_pos (by simp [hc])]
      exact List.perm_middle.trans (ih.cons c)
    · rw [List.filter_cons_of_pos hc, List.filter_cons_of_neg (by simp [hc])]
      exact ih.cons c

theorem roomCardIds_eq (r : Room) :
    roomCardIds r = handIds r.players + idsOf r.deck + idsOf r.discardPile := by
  simp [roomCardIds, handIds, idsOf, Multiset.coe_add]

theorem handIds_set (ps : List Player) (i : Nat) (q p : Player)
    (h : ps.get? i = some p) :
    handIds (ps.set i q) + idsOf p.hand = handIds ps + idsOf q.hand := by
  rw [List.get?_eq_getElem?] at h
  have hlen : i < ps.length := by
    by_contra hge
    rw [List.getElem?_eq_none (by omega)] at h
    exact Option.noConfusion h
  have hp : ps[i] = p := by
    have := List.getElem?_eq_getElem hlen
    rw [this] at h
    injection h
  rw [List.set_eq_take_cons_drop q hlen]
  conv_rhs => rw [← List.take_append_drop i ps, List.drop_eq_getElem_cons hlen, hp]
  simp only [handIds, idsOf, List.map_append, List.map_cons, List.flatten_append,
    List.flatten_cons, ← Multiset.coe_add]
  abel

theorem cons_set_perm {α : Type} (c : α) :
    ∀ (t : List α) (k : Nat) (b : α), t.get? k = some b →
      (b :: t.set k c).Perm (c :: t) := by
  intro t
  induction t with
  | nil => intro k b h; cases h
  | cons d s ih =>
    intro k b h
    cases k with
    | zero =>
      injection h with h
      subst h
      exact List.Perm.swap c d s
    | succ m =>
      have h1 := ih m b h
      exact ((List.Perm.swap d b _).trans (h1.cons d)).trans (List.Perm.swap c d s)

theorem set_set_perm {α : Type} :
    ∀ (l : List α) (i j : Nat) (a b : α), l.get? i = some a → l.get? j = some b →
      ((l.set i b).set j a).Perm l := by
  intro l
  induction l with
  | nil => intro i j a b hi _; cases hi
  | cons c t ih =>
    intro i j a b hi hj
    cases i with
    | zero =>
      injection hi with hi
      subst hi
      cases j with
      | zero =>
        injection hj with hj
        subst hj
        exact List.Perm.refl _
      | succ m => exact cons_set_perm c t m b hj
    | succ k =>
      cases j with
      | zero =>
        injection hj with hj
        subst hj
        exact cons_set_perm c t k a hi
      | succ m => exact (ih k m a b hi hj).cons c


theorem idsOf_swap_perm (l : List Card) (i j : Nat) : idsOf (swapAt l i j) = idsOf l := by
  refine idsOf_perm ?_
  unfold swapAt
  rcases hi : l.get? i with _ | a
  · exact List.Perm.refl _
  · rcases hj : l.get? j with _ | b
    · exact List.Perm.refl _
    · exact set_set_perm l i j a b hi hj

theorem idsOf_fyLoop (choose : Nat → Nat) : ∀ (n : Nat) (l : List Card),
    idsOf (fyLoop choose n l) = idsOf l := by
  intro n
  induction n with
  | zero => intro l; rfl
  | succ i ih =>
    intro l
    rw [fyLoop, ih, idsOf_swap_perm]

theorem idsOf_fy (choose : Nat → Nat) (l : List Card) :
    idsOf (fisherYates choose l) = idsOf l := idsOf_fyLoop choose (l.length - 1) l

theorem flow_le (choose : Nat → Nat) (mode : String) (deck discard hand : List Card) :
    idsOf (resolveCardFlow choose mode deck discard hand).1
      + idsOf (resolveCardFlow choose mode deck discard hand).2.1
      + idsOf (resolveCardFlow choose mode deck discard hand).2.2
    ≤ idsOf hand + (idsOf deck + idsOf discard) := by
  unfold resolveCardFlow
  dsimp only
  by_cases hm : mode = "recycling"
  · rw [if_pos hm]
    by_cases hlow : deck.length < 8
        ∧ (discard ++ (hand.filter (fun c => c.selected)).map cleanFlags).length > 0
    · rw [if_pos hlow]
      dsimp only
      rw [idsOf_cleanFlags, idsOf_take_drop]
      rw [idsOf_append]
      rw [idsOf_fy]
      rw [idsOf_append, idsOf_cleanFlags]
      have hf := idsOf_filter_le (fun c => c.selected) hand
      have : idsOf [] = 0 := rfl
      rw [this, add_zero]
      calc idsOf deck + (idsOf discard + idsOf (List.filter (fun c => c.selected) hand))
          ≤ idsOf deck + (idsOf discard + idsOf hand) := by
            exact add_le_add_left (add_le_add_left hf _) _
        _ = idsOf hand + (idsOf deck + idsOf discard) := by abel
    · rw [if_neg hlow]
      dsimp only
      rw [idsOf_cleanFlags, idsOf_take_drop, idsOf_append, idsOf_cleanFlags]
      have hf := idsOf_filter_le (fun c => c.selected) hand
      calc idsOf deck + (idsOf discard + idsOf (List.filter (fun c => c.selected) hand))
          ≤ idsOf deck + (idsOf discard + idsOf hand) :=
            add_le_add_left (add_le_add_left hf _) _
        _ = idsOf hand + (idsOf deck + idsOf discard) := by abel
  · rw [if_neg hm]
    dsimp only
    rw [idsOf_cleanFlags, idsOf_take_drop]
    exact le_add_self

theorem toggleSelect_ids (cardId : Nat) : ∀ (hand h2 : List Card) (s : Bool),
    toggleSelect cardId hand = some (h2, s) → idsOf h2 = idsOf hand := by
  intro hand
  induction hand with
  | nil => intro h2 s h; cases h
  | cons c t ih =>
    intro h2 s h
    rw [toggleSelect] at h
    by_cases hc : c.id = cardId
    · rw [if_pos hc] at h
      injection h with h
      cases h
      rfl
    · rw [if_neg hc] at h
      rcases ht : toggleSelect cardId t with _ | p
      · rw [ht] at h; cases h
      · rw [ht] at h
        dsimp only [Option.map] at h
        injection h with h
        cases h
        have h3 := ih p.1 p.2 (by rw [ht])
        rw [idsOf, idsOf, List.map_cons, List.map_cons, ← Multiset.cons_coe,
          ← Multiset.cons_coe]
        rw [idsOf, idsOf] at h3
        rw [h3]

theorem toggleMark_ids (cardId : Nat) : ∀ (hand h2 : List Card) (s : Bool),
    toggleMark cardId hand = some (h2, s) → idsOf h2 = idsOf hand := by
  intro hand
  induction hand with
  | nil => intro h2 s h; cases h
  | cons c t ih =>
    intro h2 s h
    rw [toggleMark] at h
    by_cases hc : c.id = cardId
    · rw [if_pos hc] at h
      injection h with h
      cases h
      rfl
    · rw [if_neg hc] at h
      rcases ht : toggleMark cardId t with _ | p
      · rw [ht] at h; cases h
      · rw [ht] at h
        dsimp only [Option.map] at h
        injection h with h
        cases h
        have h3 := ih p.1 p.2 (by rw [ht])
        rw [idsOf, idsOf, List.map_cons, List.map_cons, ← Multiset.cons_coe,
          ← Multiset.cons_coe]
        rw [idsOf, idsOf] at h3
        rw [h3]

theorem core_bound (room : Room) (i : Nat) (cur cur1 enemy enemy1 : Player)
    (choose : Nat → Nat)
    (hgi : room.players.get? i = some cur)
    (hge : room.players.get? (1 - i) = some enemy)
    (hcur1 : idsOf cur1.hand
      = idsOf (resolveCardFlow choose room.gameMode room.deck room.discardPile cur.hand).1)
    (hene1 : idsOf enemy1.hand = idsOf enemy.hand) :
    handIds ((room.players.set i cur1).set (1 - i) enemy1)
        + idsOf (resolveCardFlow choose room.gameMode room.deck room.discardPile cur.hand).2.1
        + idsOf (resolveCardFlow choose room.gameMode room.deck room.discardPile cur.hand).2.2
      ≤ handIds room.players + idsOf room.deck + idsOf room.discardPile := by
  have hne : i ≠ 1 - i := by omega
  have h2 : (room.players.set i cur1).get? (1 - i) = some enemy := by
    rw [List.get?_eq_getElem?, List.getElem?_set_ne hne, ← List.get?_eq_getElem?]
    exact hge
  have hA := handIds_set (room.players.set i cur1) (1 - i) enemy1 enemy h2
  rw [hene1] at hA
  have hX := add_right_cancel hA
  have hB := handIds_set room.players i cur1 cur hgi
  rw [hcur1] at hB
  have hflow := flow_le choose room.gameMode room.deck room.discardPile cur.hand
  refine (add_le_add_iff_right (idsOf cur.hand)).mp ?_
  calc handIds ((room.players.set i cur1).set (1 - i) enemy1)
        + idsOf (resolveCardFlow choose room.gameMode room.deck room.discardPile cur.hand).2.1
        + idsOf (resolveCardFlow choose room.gameMode room.deck room.discardPile cur.hand).2.2
        + idsOf cur.hand
      = (handIds (room.players.set i cur1) + idsOf cur.hand)
          + (idsOf (resolveCardFlow choose room.gameMode room.deck
              room.discardPile cur.hand).2.1
            + idsOf (resolveCardFlow choose room.gameMode room.deck
              room.discardPile cur.hand).2.2) := by rw [hX]; abel
    _ = (handIds room.players
          + idsOf (resolveCardFlow choose room.gameMode room.deck room.discardPile cur.hand).1)
          + (idsOf (resolveCardFlow choose room.gameMode room.deck
              room.discardPile cur.hand).2.1
            + idsOf (resolveCardFlow choose room.gameMode room.deck
              room.discardPile cur.hand).2.2) := by rw [hB]
    _ = handIds room.players
          + (idsOf (resolveCardFlow choose room.gameMode room.deck room.discardPile cur.hand).1
            + idsOf (resolveCardFlow choose room.gameMode room.deck
                room.discardPile cur.hand).2.1
            + idsOf (resolveCardFlow choose room.gameMode room.deck
                room.discardPile cur.hand).2.2) := by abel
    _ ≤ handIds room.players
          + (idsOf cur.hand + (idsOf room.deck + idsOf room.discardPile)) :=
        add_le_add_left hflow _
    _ = handIds room.players + idsOf room.deck + idsOf room.discardPile
          + idsOf cur.hand := by abel

theorem playHandCore_le (room : Room) (i : Nat) (cur enemy : Player) (choose : Nat → Nat)
    (r' : Room)
    (hgi : room.players.get? i = some cur)
    (hge : room.players.get? (1 - i) = some enemy)
    (h : stepRoom (playHandCore room i cur enemy choose) = some r') :
    roomCardIds r' ≤ roomCardIds room := by
  unfold playHandCore at h
  dsimp only at h
  repeat' split at h
  all_goals {
    dsimp only [stepRoom] at h
    rw [Option.some.injEq] at h
    subst h
    rw [roomCardIds_eq, roomCardIds_eq]
    dsimp only
    exact core_bound room i cur _ enemy _ choose hgi hge rfl rfl
  }

theorem buildArmorCore_le (room : Room) (cur : Player) (choose : Nat → Nat)
    (r' : Room)
    (hgi : room.players.get? room.currentPlayer = some cur)
    (h : stepRoom (buildArmorCore room cur choose) = some r') :
    roomCardIds r' ≤ roomCardIds room := by
  unfold buildArmorCore at h
  dsimp only at h
  rcases hgo : (if room.currentPlayer ≤ 1
      then room.players.get? (1 - room.currentPlayer) else none) with _ | enemy
  · rw [hgo] at h
    dsimp only [stepRoom] at h
    rw [Option.some.injEq] at h
    subst h
    exact le_refl _
  · rw [hgo] at h
    dsimp only [stepRoom] at h
    rw [Option.some.injEq] at h
    subst h
    have hge : room.players.get? (1 - room.currentPlayer) = some enemy := by
      by_cases hle : room.currentPlayer ≤ 1
      · rw [if_pos hle] at hgo; exact hgo
      · rw [if_neg hle] at hgo; cases hgo
    rw [roomCardIds_eq, roomCardIds_eq]
    dsimp only
    exact core_bound room room.currentPlayer cur _ enemy _ choose hgi hge rfl rfl

theorem playHand_le (room : Room) (known : Bool) (actorId : Nat) (choose : Nat → Nat)
    (r' : Room) (h : stepRoom (playHand (some room) known actorId choose) = some r') :
    roomCardIds r' ≤ roomCardIds room := by
  unfold playHand at h
  dsimp only at h
  by_cases hg : (¬ known = true ∨ ¬ room.gameState = "playing")
  · rw [if_pos hg] at h
    dsimp only [stepRoom] at h
    rw [Option.some.injEq] at h
    subst h
    exact le_refl _
  · rw [if_neg hg] at h
    rcases hf : List.findIdx? (fun p => p.id == actorId) room.players with _ | i
    · rw [hf] at h
      dsimp only [stepRoom] at h
      rw [Option.some.injEq] at h
      subst h
      exact le_refl _
    · rw [hf] at h
      dsimp only at h
      by_cases hi : i ≠ room.currentPlayer
      · rw [if_pos hi] at h
        dsimp only [stepRoom] at h
        rw [Option.some.injEq] at h
        subst h
        exact le_refl _
      · rw [if_neg hi] at h
        rcases hgi : room.players.get? i with _ | cur
        · rw [hgi] at h
          dsimp only [stepRoom] at h
          rw [Option.some.injEq] at h
          subst h
          exact le_refl _
        · rw [hgi] at h
          rcases hgo : (if i ≤ 1 then room.players.get? (1 - i) else none) with _ | enemy
          · rw [hgo] at h
            dsimp only [stepRoom] at h
            rw [Option.some.injEq] at h
            subst h
            exact le_refl _
          · rw [hgo] at h
            dsimp only at h
            by_cases hsel : cur.selectedCards.length = 0
            · rw [if_pos hsel] at h
              dsimp only [stepRoom] at h
              rw [Option.some.injEq] at h
              subst h
              exact le_refl _
            · rw [if_neg hsel] at h
              by_cases hval : (!(validateHand cur.selectedCards).valid) = true
              · rw [if_pos hval] at h
                dsimp only [stepRoom] at h
                rw [Option.some.injEq] at h
                subst h
                exact le_refl _
              · rw [if_neg hval] at h
                have hge : room.players.get? (1 - i) = some enemy := by
                  by_cases hle : i ≤ 1
                  · rw [if_pos hle] at hgo; exact hgo
                  · rw [if_neg hle] at hgo; cases hgo
                exact playHandCore_le room i cur enemy choose r' hgi hge h

theorem buildArmor_le (room : Room) (known : Bool) (actorId : Nat) (choose : Nat → Nat)
    (r' : Room) (h : stepRoom (buildArmor (some room) known actorId choose) = some r') :
    roomCardIds r' ≤ roomCardIds room := by
  unfold buildArmor at h
  dsimp only at h
  by_cases hg : (¬ known = true ∨ ¬ room.gameMode = "tactical" ∨ ¬ room.gameState = "playing")
  · rw [if_pos hg] at h
    dsimp only [stepRoom] at h
    rw [Option.some.injEq] at h
    subst h
    exact le_refl _
  · rw [if_neg hg] at h
    by_cases hid : List.findIdx? (fun p => p.id == actorId) room.players
        ≠ some room.currentPlayer
    · rw [if_pos hid] at h
      dsimp only [stepRoom] at h
      rw [Option.some.injEq] at h
      subst h
      exact le_refl _
    · rw [if_neg hid] at h
      rcases hgi : room.players.get? room.currentPlayer with _ | cur
      · rw [hgi] at h
        dsimp only [stepRoom] at h
        rw [Option.some.injEq] at h
        subst h
        exact le_refl _
      · rw [hgi] at h
        dsimp only at h
        by_cases hsel : cur.selectedCards.length = 0
        · rw [if_pos hsel] at h
          dsimp only [stepRoom] at h
          rw [Option.some.injEq] at h
          subst h
          exact le_refl _
        · rw [if_neg hsel] at h
          by_cases hval : (!(validateHand cur.selectedCards).valid) = true
          · rw [if_pos hval] at h
            dsimp only [stepRoom] at h
            rw [Option.some.injEq] at h
            subst h
            exact le_refl _
          · rw [if_neg hval] at h
            exact buildArmorCore_le room cur choose r' hgi h

theorem handIds_set_same (ps : List Player) (i : Nat) (q p : Player)
    (hgi : ps.get? i = some p) (hq : idsOf q.hand = idsOf p.hand) :
    handIds (ps.set i q) = handIds ps := by
  have hA := handIds_set ps i q p hgi
  rw [hq] at hA
  exact add_right_cancel hA

theorem selectCard_eq (room : Room) (known : Bool) (actorId cardId : Nat)
    (r' : Room) (h : stepRoom (selectCard (some room) known actorId cardId) = some r') :
    roomCardIds r' = roomCardIds room := by
  unfold selectCard at h
  dsimp only at h
  by_cases hg : (¬ known = true ∨ ¬ room.gameState = "playing")
  · rw [if_pos hg] at h
    dsimp only [stepRoom] at h
    rw [Option.some.injEq] at h
    subst h
    rfl
  · rw [if_neg hg] at h
    rcases hf : List.findIdx? (fun p => p.id == actorId) room.players with _ | i
    · rw [hf] at h
      dsimp only [stepRoom] at h
      rw [Option.some.injEq] at h
      subst h
      rfl
    · rw [hf] at h
      dsimp only at h
      by_cases hi : i ≠ room.currentPlayer
      · rw [if_pos hi] at h
        dsimp only [stepRoom] at h
        rw [Option.some.injEq] at h
        subst h
        rfl
      · rw [if_neg hi] at h
        rcases hgp : room.players.get? i with _ | cur
        · rw [hgp] at h
          dsimp only [stepRoom] at h
          rw [Option.some.injEq] at h
          subst h
          rfl
        · rw [hgp] at h
          dsimp only at h
          rcases ht : toggleSelect cardId cur.hand with _ | p2
          · rw [ht] at h
            dsimp only [stepRoom] at h
            rw [Option.some.injEq] at h
            subst h
            rfl
          · rw [ht] at h
            dsimp only [stepRoom] at h
            rw [Option.some.injEq] at h
            subst h
            rw [roomCardIds_eq, roomCardIds_eq]
            dsimp only
            rw [handIds_set_same room.players i _ cur hgp
              (toggleSelect_ids cardId cur.hand p2.1 p2.2 (by rw [ht]))]

theorem markForDiscard_eq (room : Room) (known : Bool) (actorId cardId : Nat)
    (r' : Room) (h : stepRoom (markForDiscard (some room) known actorId cardId) = some r') :
    roomCardIds r' = roomCardIds room := by
  unfold markForDiscard at h
  dsimp only at h
  by_cases hg : (¬ known = true ∨ ¬ room.gameState = "playing")
  · rw [if_pos hg] at h
    dsimp only [stepRoom] at h
    rw [Option.some.injEq] at h
    subst h
    rfl
  · rw [if_neg hg] at h
    rcases hf : List.findIdx? (fun p => p.id == actorId) room.players with _ | i
    · rw [hf] at h
      dsimp only [stepRoom] at h
      rw [Option.some.injEq] at h
      subst h
      rfl
    · rw [hf] at h
      dsimp only at h
      by_cases hi : i ≠ room.currentPlayer
      · rw [if_pos hi] at h
        dsimp only [stepRoom] at h
        rw [Option.some.injEq] at h
        subst h
        rfl
      · rw [if_neg hi] at h
        rcases hgp : room.players.get? i with _ | cur
        · rw [hgp] at h
          dsimp only [stepRoom] at h
          rw [Option.some.injEq] at h
          subst h
          rfl
        · rw [hgp] at h
          dsimp only at h
          rcases ht : toggleMark cardId cur.hand with _ | p2
          · rw [ht] at h
            dsimp only [stepRoom] at h
            rw [Option.some.injEq] at h
            subst h
            rfl
          · rw [ht] at h
            dsimp only [stepRoom] at h
            rw [Option.some.injEq] at h
            subst h
            rw [roomCardIds_eq, roomCardIds_eq]
            dsimp only
            rw [handIds_set_same room.players i _ cur hgp
              (toggleMark_ids cardId cur.hand p2.1 p2.2 (by rw [ht]))]

theorem makePrediction_eq (room : Room) (known : Bool) (actorId : Nat) (pred : String)
    (r' : Room) (h : stepRoom (makePrediction (some room) known actorId pred) = some r') :
    roomCardIds r' = roomCardIds room := by
  unfold makePrediction at h
  dsimp only at h
  by_cases hg : (¬ known = true ∨ ¬ room.gameMode = "tactical")
  · rw [if_pos hg] at h
    dsimp only [stepRoom] at h
    rw [Option.some.injEq] at h
    subst h
    rfl
  · rw [if_neg hg] at h
    rcases hf : List.findIdx? (fun p => p.id == actorId) room.players with _ | i
    · rw [hf] at h
      dsimp only [stepRoom] at h
      rw [Option.some.injEq] at h
      subst h
      rfl
    · rw [hf] at h
      dsimp only at h
      by_cases hi : i = room.currentPlayer
      · rw [if_pos hi] at h
        dsimp only [stepRoom] at h
        rw [Option.some.injEq] at h
        subst h
        rfl
      · rw [if_neg hi] at h
        rcases hgp : room.players.get? i with _ | pl
        · rw [hgp] at h
          dsimp only [stepRoom] at h
          rw [Option.some.injEq] at h
          subst h
          rfl
        · rw [hgp] at h
          dsimp only [stepRoom] at h
          rw [Option.some.injEq] at h
          subst h
          rw [roomCardIds_eq, roomCardIds_eq]
          dsimp only
          rw [handIds_set_same room.players i
            { pl with prediction := some pred } pl hgp rfl]

theorem discard_core_eq (room : Room) (i n : Nat) (cur cur1 : Player)
    (hgp : room.players.get? i = some cur)
    (hcur1 : idsOf cur1.hand
      = idsOf ((cur.hand.filter fun c => !c.markedForDiscard)
          ++ (room.deck.take n).map cleanFlags)) :
    handIds (room.players.set i cur1) + idsOf (room.deck.drop n)
      + idsOf (room.discardPile
          ++ (cur.hand.filter fun c => c.markedForDiscard).map cleanFlags)
      = handIds room.players + idsOf room.deck + idsOf room.discardPile := by
  have hA := handIds_set room.players i cur1 cur hgp
  rw [hcur1, idsOf_append, idsOf_cleanFlags] at hA
  have hpart : idsOf (cur.hand.filter fun c => c.markedForDiscard)
      + idsOf (cur.hand.filter fun c => !c.markedForDiscard) = idsOf cur.hand :=
    idsOf_filter_partition _ cur.hand
  have htd := idsOf_take_drop room.deck n
  refine (add_left_inj (idsOf cur.hand)).mp ?_
  rw [idsOf_append, idsOf_cleanFlags]
  calc handIds (room.players.set i cur1) + idsOf (room.deck.drop n)
        + (idsOf room.discardPile + idsOf (cur.hand.filter fun c => c.markedForDiscard))
        + idsOf cur.hand
      = (handIds (room.players.set i cur1) + idsOf cur.hand)
        + (idsOf (room.deck.drop n) + idsOf room.discardPile
          + idsOf (cur.hand.filter fun c => c.markedForDiscard)) := by abel
    _ = (handIds room.players + (idsOf (cur.hand.filter fun c => !c.markedForDiscard)
          + idsOf (room.deck.take n)))
        + (idsOf (room.deck.drop n) + idsOf room.discardPile
          + idsOf (cur.hand.filter fun c => c.markedForDiscard)) := by rw [hA]
    _ = handIds room.players
        + ((idsOf (cur.hand.filter fun c => c.markedForDiscard)
            + idsOf (cur.hand.filter fun c => !c.markedForDiscard))
          + (idsOf (room.deck.take n) + idsOf (room.deck.drop n))
          + idsOf room.discardPile) := by abel
    _ = handIds room.players
        + (idsOf cur.hand + idsOf room.deck + idsOf room.discardPile) := by
        rw [hpart, htd]
    _ = handIds room.players + idsOf room.deck + idsOf room.discardPile
        + idsOf cur.hand := by abel

theorem discard_core_le (room : Room) (i n : Nat) (cur cur1 : Player)
    (hgp : room.players.get? i = some cur)
    (hcur1 : idsOf cur1.hand
      = idsOf ((cur.hand.filter fun c => !c.markedForDiscard)
          ++ (room.deck.take n).map cleanFlags)) :
    handIds (room.players.set i cur1) + idsOf (room.deck.drop n) + idsOf room.discardPile
      ≤ handIds room.players + idsOf room.deck + idsOf room.discardPile := by
  have hA := handIds_set room.players i cur1 cur hgp
  rw [hcur1, idsOf_append, idsOf_cleanFlags] at hA
  have hkept := idsOf_filter_le (fun c => !c.markedForDiscard) cur.hand
  have htd := idsOf_take_drop room.deck n
  refine (add_le_add_iff_right (idsOf cur.hand)).mp ?_
  calc handIds (room.players.set i cur1) + idsOf (room.deck.drop n) + idsOf room.discardPile
        + idsOf cur.hand
      = (handIds (room.players.set i cur1) + idsOf cur.hand)
        + (idsOf (room.deck.drop n) + idsOf room.discardPile) := by abel
    _ = (handIds room.players + (idsOf (cur.hand.filter fun c => !c.markedForDiscard)
          + idsOf (room.deck.take n)))
        + (idsOf (room.deck.drop n) + idsOf room.discardPile) := by rw [hA]
    _ = handIds room.players
        + (idsOf (cur.hand.filter fun c => !c.markedForDiscard)
          + ((idsOf (room.deck.take n) + idsOf (room.deck.drop n))
            + idsOf room.discardPile)) := by abel
    _ = handIds room.players
        + (idsOf (cur.hand.filter fun c => !c.markedForDiscard)
          + (idsOf room.deck + idsOf room.discardPile)) := by rw [htd]
    _ ≤ handIds room.players
        + (idsOf cur.hand + (idsOf room.deck + idsOf room.discardPile)) :=
        add_le_add_left (add_le_add_right hkept _) _
    _ = handIds room.players + idsOf room.deck + idsOf room.discardPile
        + idsOf cur.hand := by abel

theorem discardCards_conserve (room : Room) (known : Bool) (actorId : Nat)
    (r' : Room) (h : stepRoom (discardCards (some room) known actorId) = some r') :
    roomCardIds r' ≤ roomCardIds room
      ∧ (room.gameMode = "recycling" → roomCardIds r' = roomCardIds room) := by
  unfold discardCards at h
  dsimp only at h
  by_cases hg : (¬ known = true ∨ ¬ room.gameState = "playing")
  · rw [if_pos hg] at h
    dsimp only [stepRoom] at h
    rw [Option.some.injEq] at h
    subst h
    exact ⟨le_refl _, fun _ => rfl⟩
  · rw [if_neg hg] at h
    rcases hf : List.findIdx? (fun p => p.id == actorId) room.players with _ | i
    · rw [hf] at h
      dsimp only [stepRoom] at h
      rw [Option.some.injEq] at h
      subst h
      exact ⟨le_refl _, fun _ => rfl⟩
    · rw [hf] at h
      dsimp only at h
      by_cases hi : i ≠ room.currentPlayer
      · rw [if_pos hi] at h
        dsimp only [stepRoom] at h
        rw [Option.some.injEq] at h
        subst h
        exact ⟨le_refl _, fun _ => rfl⟩
      · rw [if_neg hi] at h
        rcases hgp : room.players.get? i with _ | cur
        · rw [hgp] at h
          dsimp only [stepRoom] at h
          rw [Option.some.injEq] at h
          subst h
          exact ⟨le_refl _, fun _ => rfl⟩
        · rw [hgp] at h
          dsimp only at h
          by_cases hlim : ((cur.hand.filter (·.markedForDiscard)).length = 0
              ∨ (cur.hand.filter (·.markedForDiscard)).length > cur.maxCardsPerDiscard
              ∨ cur.discardsUsed ≥ cur.maxDiscards)
          · rw [if_pos hlim] at h
            dsimp only [stepRoom] at h
            rw [Option.some.injEq] at h
            subst h
            exact ⟨le_refl _, fun _ => rfl⟩
          · rw [if_neg hlim] at h
            by_cases hm : room.gameMode = "recycling"
            · rw [if_pos hm] at h
              dsimp only [stepRoom] at h
              rw [Option.some.injEq] at h
              subst h
              have heq := discard_core_eq room i
                (cur.hand.filter fun c => c.markedForDiscard).length cur
                { cur with
                  hand := (cur.hand.filter fun c => !c.markedForDiscard)
                    ++ ((room.deck.take
                        (cur.hand.filter fun c => c.markedForDiscard).length).map cleanFlags),
                  discardsUsed := cur.discardsUsed + 1 }
                hgp rfl
              constructor
              · rw [roomCardIds_eq, roomCardIds_eq]
                dsimp only
                exact le_of_eq heq
              · intro _
                rw [roomCardIds_eq, roomCardIds_eq]
                dsimp only
                exact heq
            · rw [if_neg hm] at h
              dsimp only [stepRoom] at h
              rw [Option.some.injEq] at h
              subst h
              have hle := discard_core_le room i
                (cur.hand.filter fun c => c.markedForDiscard).length cur
                { cur with
                  hand := (cur.hand.filter fun c => !c.markedForDiscard)
                    ++ ((room.deck.take
                        (cur.hand.filter fun c => c.markedForDiscard).length).map cleanFlags),
                  discardsUsed := cur.discardsUsed + 1 }
                hgp rfl
              constructor
              · rw [roomCardIds_eq, roomCardIds_eq]
                dsimp only
                exact hle
              · intro hm2
                exact absurd hm2 hm

theorem swapAt_perm (l : List Card) (i j : Nat) : (swapAt l i j).Perm l := by
  unfold swapAt
  rcases hi : l.get? i with _ | a
  · exact List.Perm.refl _
  · rcases hj : l.get? j with _ | b
    · exact List.Perm.refl _
    · exact set_set_perm l i j a b hi hj

theorem fyLoop_perm (choose : Nat → Nat) : ∀ (n : Nat) (l : List Card),
    (fyLoop choose n l).Perm l := by
  intro n
  induction n with
  | zero => intro l; exact List.Perm.refl _
  | succ i ih =>
    intro l
    exact (ih _).trans (swapAt_perm l (i + 1) (choose (i + 1) % (i + 2)))

theorem fisherYates_perm (choose : Nat → Nat) (l : List Card) :
    (fisherYates choose l).Perm l := fyLoop_perm choose (l.length - 1) l

/-- C1 counterexample: in the Classic room freshly dealt by `startGame`
(8 + 8 cards in hands, 36 in the draw pile: 52 in all), one successful
discard leaves 51 cards across all zones - the marked card is removed
from the hand and replaced from the draw pile, but in Classic mode it is
pushed to no pile, so a card is lost and the 52-card total is not
conserved. -/
theorem card_conservation_counterexample :
    demoStarted.gameMode = "classic" ∧ totalCards demoStarted = 52
      ∧ totalCards demoDiscarded = 51 := by
  decide

/-- C1 amended: no operation ever creates or duplicates a card. The
shuffle is a permutation; after every play-hand, build-armor or discard
the multiset of card ids across all zones is a sub-multiset of the one
before (cards can only be lost, never gained); a discard in Recycling
mode, a selection toggle, a discard-mark toggle and a prediction preserve
the multiset exactly. -/
theorem card_conservation_amended :
    (∀ (choose : Nat → Nat) (l : List Card), (fisherYates choose l).Perm l)
    ∧ (∀ (room : Room) (known : Bool) (actorId : Nat) (choose : Nat → Nat) (r' : Room),
        stepRoom (playHand (some room) known actorId choose) = some r' →
        roomCardIds r' ≤ roomCardIds room)
    ∧ (∀ (room : Room) (known : Bool) (actorId : Nat) (choose : Nat → Nat) (r' : Room),
        stepRoom (buildArmor (some room) known actorId choose) = some r' →
        roomCardIds r' ≤ roomCardIds room)
    ∧ (∀ (room : Room) (known : Bool) (actorId : Nat) (r' : Room),
        stepRoom (discardCards (some room) known actorId) = some r' →
        roomCardIds r' ≤ roomCardIds room
          ∧ (room.gameMode = "recycling" → roomCardIds r' = roomCardIds room))
    ∧ (∀ (room : Room) (known : Bool) (actorId cardId : Nat) (r' : Room),
        stepRoom (selectCard (some room) known actorId cardId) = some r' →
        roomCardIds r' = roomCardIds room)
    ∧ (∀ (room : Room) (known : Bool) (actorId cardId : Nat) (r' : Room),
        stepRoom (markForDiscard (some room) known actorId cardId) = some r' →
        roomCardIds r' = roomCardIds room)
    ∧ (∀ (room : Room) (known : Bool) (actorId : Nat) (pred : String) (r' : Room),
        stepRoom (makePrediction (some room) known actorId pred) = some r' →
        roomCardIds r' = roomCardIds room) :=
  ⟨fisherYates_perm, playHand_le, buildArmor_le, discardCards_conserve,
    selectCard_eq, markForDiscard_eq, makePrediction_eq⟩

/-- C1 witness: the conservation theorem's selection-toggle conjunct
applied to the freshly dealt demonstration room. -/
theorem card_conservation_amended_witness :
    roomCardIds ((stepRoom (selectCard (some demoStarted) true 1 demoFirstCardId)).getD
        default)
      = roomCardIds demoStarted :=
  card_conservation_amended.2.2.2.2.1 demoStarted true 1 demoFirstCardId
    ((stepRoom (selectCard (some demoStarted) true 1 demoFirstCardId)).getD default)
    (by decide)
